import Mathlib

/-!
# go-todo: the browser agent's control loop, tool dispatch and browser action layer

A shallow embedding of `src/agent/agent.go`, `src/tools/tools.go` and
`src/browser/browser.go`, followed by theorems about it.

Conventions of the embedding

* A Go `string` is its sequence of bytes (`GoString`); `len` is the number of
  bytes and `s[:n]` the first `n` bytes. Source literals are written with `utf8`.
* A Go `error` value is modelled by the text its `Error()` method returns
  (`GoError`); a returned `error` is `Option GoError` (`none` is `nil`) and a
  `(T, error)` pair is `Except GoError T`.
* A Go panic (there is no `recover` anywhere in the program) is the `panic`
  constructor of `Outcome`.
* The LLM client (`go-openai`) and the page driver (`rod`) are collaborators: the
  record `Env` holds one transition function per driver call over an arbitrary
  world state `σ`, so every theorem quantified over `Env` covers every behaviour
  of the two.
* `fmt.Printf` and `fmt.Println` (console output) and `time.Sleep` have no effect
  on the values computed and are left out.
* Not embedded: `src/main.go` (the command-line shell) and, of the browser layer,
  `NewBrowserManager`, `Screenshot`, `ExecuteJavaScript`, `GetVisibleElements` and
  `Close`, which the agent never calls.
-/

set_option autoImplicit false
set_option maxRecDepth 100000

namespace GoTodo

/-! ## Go strings and errors -/

/-- A Go string: a sequence of bytes. -/
abbrev GoString := List UInt8

/-- The bytes of a source literal (Go source files are UTF-8). -/
def utf8 (s : String) : GoString := s.data.flatMap String.utf8EncodeChar

/-- The text of `fmt.Sprintf("%d", n)` for an integer. -/
def fmtInt (n : Int) : GoString := utf8 (toString n)

/-- Go's `strings.HasPrefix(s, p)`. -/
def HasPrefix (s p : GoString) : Bool := p.isPrefixOf s

/-- Go's `strings.Trim(s, "\"")`: drops the double quotes at both ends. -/
def TrimQuotes (s : GoString) : GoString :=
  ((s.dropWhile (fun c => c == 0x22)).reverse.dropWhile (fun c => c == 0x22)).reverse

/-- A Go `error` value, as far as the program looks at it: the text of `Error()`. -/
structure GoError where
  Error : GoString
  deriving DecidableEq

/-- What a call produces in Go: it returns a value or it panics. -/
inductive Outcome (α : Type) where
  | ret (v : α)
  | panic (v : GoError)
  deriving DecidableEq

deriving instance DecidableEq for Except

/-! ## `encoding/json`, as `json.Unmarshal` into a flat struct uses it -/

namespace JSON

/-- A JSON value; a number keeps its literal text. -/
inductive JVal where
  | null
  | bool (b : Bool)
  | number (lit : GoString)
  | string (s : GoString)
  | array (elems : List JVal)
  | object (members : List (GoString × JVal))

/-- The scanner's nesting limit (`maxNestingDepth`). -/
def maxNestingDepth : Nat := 10000

def isSpace (c : UInt8) : Bool := c == 0x20 || c == 0x09 || c == 0x0d || c == 0x0a

def skipSpace : GoString → GoString
  | [] => []
  | c :: rest => if isSpace c then skipSpace rest else c :: rest

def isDigit (c : UInt8) : Bool := 0x30 ≤ c && c ≤ 0x39

def hexVal (c : UInt8) : Option Nat :=
  if 0x30 ≤ c && c ≤ 0x39 then some (c.toNat - 0x30)
  else if 0x61 ≤ c && c ≤ 0x66 then some (c.toNat - 0x61 + 10)
  else if 0x41 ≤ c && c ≤ 0x46 then some (c.toNat - 0x41 + 10)
  else none

/-- Four hexadecimal digits (`getu4` without the leading `\u`). -/
def hex4 : GoString → Option (Nat × GoString)
  | a :: b :: c :: d :: rest =>
    match hexVal a, hexVal b, hexVal c, hexVal d with
    | some x, some y, some z, some w => some (((x * 16 + y) * 16 + z) * 16 + w, rest)
    | _, _, _, _ => none
  | _ => none

/-- The escape `\uXXXX` at the head of the input (`getu4`). -/
def getu4 : GoString → Option (Nat × GoString)
  | 0x5c :: 0x75 :: rest => hex4 rest
  | _ => none

/-- The replacement character U+FFFD in UTF-8. -/
def replacementChar : GoString := [0xef, 0xbf, 0xbd]

/-- The text of `utf8.EncodeRune` for a code point. -/
def encodeRune (r : Nat) : GoString :=
  if (0xd800 ≤ r ∧ r < 0xe000) ∨ 0x10ffff < r then replacementChar
  else String.utf8EncodeChar (Char.ofNat r)

def isCont (c : UInt8) : Bool := 0x80 ≤ c && c ≤ 0xbf

/-- The size `utf8.DecodeRune` reports for the non-ASCII rune at the head of the
input, `0` when the bytes there are not a well-formed encoding. -/
def runeLen : GoString → Nat
  | c :: rest =>
    if 0xc2 ≤ c && c ≤ 0xdf then
      match rest with
      | c1 :: _ => if isCont c1 then 2 else 0
      | _ => 0
    else if 0xe0 ≤ c && c ≤ 0xef then
      match rest with
      | c1 :: c2 :: _ =>
        let lo : UInt8 := if c == 0xe0 then 0xa0 else 0x80
        let hi : UInt8 := if c == 0xed then 0x9f else 0xbf
        if lo ≤ c1 && c1 ≤ hi && isCont c2 then 3 else 0
      | _ => 0
    else if 0xf0 ≤ c && c ≤ 0xf4 then
      match rest with
      | c1 :: c2 :: c3 :: _ =>
        let lo : UInt8 := if c == 0xf0 then 0x90 else 0x80
        let hi : UInt8 := if c == 0xf4 then 0x8f else 0xbf
        if lo ≤ c1 && c1 ≤ hi && isCont c2 && isCont c3 then 4 else 0
      | _ => 0
    else 0
  | [] => 0

/-- The body of a string literal, the opening quote already read: the decoded
text (`unquote`) and the input after the closing quote. `none` when the scanner
rejects the literal. -/
def readString : Nat → GoString → GoString → Option (GoString × GoString)
  | 0, _, _ => none
  | fuel + 1, input, acc =>
    match input with
    | [] => none
    | 0x22 :: rest => some (acc, rest)
    | 0x5c :: 0x22 :: rest => readString fuel rest (acc ++ [0x22])
    | 0x5c :: 0x5c :: rest => readString fuel rest (acc ++ [0x5c])
    | 0x5c :: 0x2f :: rest => readString fuel rest (acc ++ [0x2f])
    | 0x5c :: 0x62 :: rest => readString fuel rest (acc ++ [0x08])
    | 0x5c :: 0x66 :: rest => readString fuel rest (acc ++ [0x0c])
    | 0x5c :: 0x6e :: rest => readString fuel rest (acc ++ [0x0a])
    | 0x5c :: 0x72 :: rest => readString fuel rest (acc ++ [0x0d])
    | 0x5c :: 0x74 :: rest => readString fuel rest (acc ++ [0x09])
    | 0x5c :: 0x75 :: rest =>
      match hex4 rest with
      | none => none
      | some (rr, r1) =>
        if 0xd800 ≤ rr ∧ rr < 0xe000 then
          match getu4 r1 with
          | some (rr1, r2) =>
            if rr < 0xdc00 ∧ 0xdc00 ≤ rr1 ∧ rr1 < 0xe000 then
              readString fuel r2
                (acc ++ encodeRune ((rr - 0xd800) * 1024 + (rr1 - 0xdc00) + 0x10000))
            else readString fuel r1 (acc ++ replacementChar)
          | none => readString fuel r1 (acc ++ replacementChar)
        else readString fuel r1 (acc ++ encodeRune rr)
    | 0x5c :: _ => none
    | c :: rest =>
      if c < 0x20 then none
      else if c < 0x80 then readString fuel rest (acc ++ [c])
      else
        let n := runeLen (c :: rest)
        if n = 0 then readString fuel rest (acc ++ replacementChar)
        else readString fuel (rest.drop (n - 1)) (acc ++ (c :: rest).take n)

/-- The digits at the head of the input, and the rest. -/
def spanDigits (input : GoString) : GoString × GoString := input.span isDigit

/-- A number literal at the head of the input: its text and the rest. -/
def scanNumber (input : GoString) : Option (GoString × GoString) :=
  let (sign, r0) : GoString × GoString :=
    match input with
    | 0x2d :: r => ([0x2d], r)
    | _ => ([], input)
  let intPart : Option (GoString × GoString) :=
    match r0 with
    | 0x30 :: r => some ([0x30], r)
    | c :: r => if isDigit c then some (c :: (spanDigits r).1, (spanDigits r).2) else none
    | [] => none
  match intPart with
  | none => none
  | some (ip, r1) =>
    let frac : Option (GoString × GoString) :=
      match r1 with
      | 0x2e :: r =>
        if (spanDigits r).1 = [] then none else some (0x2e :: (spanDigits r).1, (spanDigits r).2)
      | _ => some ([], r1)
    match frac with
    | none => none
    | some (fp, r2) =>
      let hasExp : Bool := match r2 with
        | c :: _ => c == 0x65 || c == 0x45
        | [] => false
      if hasExp then
        let r3 := r2.drop 1
        let (es, r4) : GoString × GoString :=
          match r3 with
          | c :: r => if c == 0x2b || c == 0x2d then ([c], r) else ([], r3)
          | [] => ([], r3)
        if (spanDigits r4).1 = [] then none
        else some (sign ++ ip ++ fp ++ r2.take 1 ++ es ++ (spanDigits r4).1, (spanDigits r4).2)
      else some (sign ++ ip ++ fp, r2)

mutual
/-- One JSON value at the head of the input (leading white space allowed), and the
input after it. `depth` counts the arrays and objects already open. -/
def parseValue : Nat → Nat → GoString → Option (JVal × GoString)
  | 0, _, _ => none
  | fuel + 1, depth, input =>
    match skipSpace input with
    | [] => none
    | 0x7b :: rest =>
      if maxNestingDepth ≤ depth then none
      else
        match skipSpace rest with
        | 0x7d :: r => some (JVal.object [], r)
        | other => parseMembers fuel (depth + 1) other []
    | 0x5b :: rest =>
      if maxNestingDepth ≤ depth then none
      else
        match skipSpace rest with
        | 0x5d :: r => some (JVal.array [], r)
        | other => parseElements fuel (depth + 1) other []
    | 0x22 :: rest =>
      match readString (rest.length + 1) rest [] with
      | some (s, r) => some (JVal.string s, r)
      | none => none
    | 0x74 :: 0x72 :: 0x75 :: 0x65 :: rest => some (JVal.bool true, rest)
    | 0x66 :: 0x61 :: 0x6c :: 0x73 :: 0x65 :: rest => some (JVal.bool false, rest)
    | 0x6e :: 0x75 :: 0x6c :: 0x6c :: rest => some (JVal.null, rest)
    | c :: rest =>
      match scanNumber (c :: rest) with
      | some (lit, r) => some (JVal.number lit, r)
      | none => none
/-- The members of an object from a key on, up to the closing brace. -/
def parseMembers : Nat → Nat → GoString → List (GoString × JVal) → Option (JVal × GoString)
  | 0, _, _, _ => none
  | fuel + 1, depth, input, acc =>
    match skipSpace input with
    | 0x22 :: rest =>
      match readString (rest.length + 1) rest [] with
      | none => none
      | some (key, r1) =>
        match skipSpace r1 with
        | 0x3a :: r2 =>
          match parseValue fuel depth r2 with
          | none => none
          | some (v, r3) =>
            match skipSpace r3 with
            | 0x2c :: r4 => parseMembers fuel depth r4 (acc ++ [(key, v)])
            | 0x7d :: r4 => some (JVal.object (acc ++ [(key, v)]), r4)
            | _ => none
        | _ => none
    | _ => none
/-- The elements of an array from an element on, up to the closing bracket. -/
def parseElements : Nat → Nat → GoString → List JVal → Option (JVal × GoString)
  | 0, _, _, _ => none
  | fuel + 1, depth, input, acc =>
    match parseValue fuel depth input with
    | none => none
    | some (v, r1) =>
      match skipSpace r1 with
      | 0x2c :: r2 => parseElements fuel depth r2 (acc ++ [v])
      | 0x5d :: r2 => some (JVal.array (acc ++ [v]), r2)
      | _ => none
end

/-- The value a whole input denotes; `none` when `checkValid` rejects the input
(a `*json.SyntaxError`). Every call of the three functions above is made after
at least one more byte was read, so `data.length + 1` bounds their depth. -/
def parse (data : GoString) : Option JVal :=
  match parseValue (data.length + 1) 0 data with
  | some (v, rest) => if skipSpace rest = [] then some v else none
  | none => none

/-- The name under which struct fields are matched with object keys without
regard to case (`foldName`): ASCII letters in upper case, and the two non-ASCII
letters whose simple case folding is ASCII, U+017F and U+212A, as `S` and `K`.
Other non-ASCII bytes stay as they are: their folding is again non-ASCII, and the
field names matched against are ASCII. -/
def foldName : GoString → GoString
  | 0xc5 :: 0xbf :: rest => 0x53 :: foldName rest
  | 0xe2 :: 0x84 :: 0xaa :: rest => 0x4b :: foldName rest
  | c :: rest => (if 0x61 ≤ c && c ≤ 0x7a then c - 0x20 else c) :: foldName rest
  | [] => []

/-- Why `json.Unmarshal` returns an error: the input is not JSON
(`*json.SyntaxError`), or a value does not fit the Go type it is stored into
(`*json.UnmarshalTypeError`, with its `Value` and `Field`). -/
inductive Failure where
  | syntaxError (data : GoString)
  | unmarshalType (value : GoString) (field : GoString)
  deriving DecidableEq

/-- The literal of a JSON number as `strconv.ParseInt(lit, 10, 64)` reads it
(`int` is 64 bits wide). -/
def parseInt64 (lit : GoString) : Option Int :=
  let (neg, ds) : Bool × GoString :=
    match lit with
    | 0x2d :: r => (true, r)
    | _ => (false, lit)
  if ds ≠ [] ∧ ds.all isDigit = true then
    let n : Int := ds.foldl (fun acc c => acc * 10 + ((c.toNat - 0x30 : Nat) : Int)) 0
    let v : Int := if neg then -n else n
    if -(2 : Int) ^ 63 ≤ v ∧ v < (2 : Int) ^ 63 then some v else none
  else none

/-- Storing a JSON value into a field of Go type `string` (`literalStore`): the
new field value, or the `Value` of the type error. `null` leaves the field as it is. -/
def storeString (v : JVal) (old : GoString) : Except GoString GoString :=
  match v with
  | JVal.string s => Except.ok s
  | JVal.null => Except.ok old
  | JVal.bool _ => Except.error (utf8 "bool")
  | JVal.number _ => Except.error (utf8 "number")
  | JVal.array _ => Except.error (utf8 "array")
  | JVal.object _ => Except.error (utf8 "object")

/-- Storing a JSON value into a field of Go type `int`. -/
def storeInt (v : JVal) (old : Int) : Except GoString Int :=
  match v with
  | JVal.number lit =>
    match parseInt64 lit with
    | some n => Except.ok n
    | none => Except.error (utf8 "number " ++ lit)
  | JVal.null => Except.ok old
  | JVal.bool _ => Except.error (utf8 "bool")
  | JVal.string _ => Except.error (utf8 "string")
  | JVal.array _ => Except.error (utf8 "array")
  | JVal.object _ => Except.error (utf8 "object")

/-- One exported field of a struct type: its `json` tag and how a value is stored
into it. -/
structure Field (T : Type) where
  name : GoString
  store : JVal → T → Except GoString T

/-- A Go struct type that `json.Unmarshal` can fill: its zero value and fields. -/
class Struct (T : Type) where
  zero : T
  fields : List (Field T)

/-- The field an object key names: the one whose folded name equals the key's. -/
def findField {T : Type} (fields : List (Field T)) (key : GoString) : Option (Field T) :=
  fields.find? (fun f => foldName f.name == foldName key)

/-- The decoder's walk over an object's members, in order: a key that names no
field is skipped, a value that does not fit is recorded (the first such error is
kept) and decoding goes on. -/
def decodeMembers {T : Type} (fields : List (Field T)) :
    List (GoString × JVal) → T → Option Failure → T × Option Failure
  | [], t, err => (t, err)
  | (key, v) :: rest, t, err =>
    match findField fields key with
    | none => decodeMembers fields rest t err
    | some f =>
      match f.store v t with
      | Except.ok t1 => decodeMembers fields rest t1 err
      | Except.error value =>
        decodeMembers fields rest t
          (match err with
           | some e => some e
           | none => some (Failure.unmarshalType value f.name))

/-- Go's `json.Unmarshal(data, &target)` for a struct `target`. -/
def Unmarshal {T : Type} [Struct T] (data : GoString) (target : T) : Except Failure T :=
  match parse data with
  | none => Except.error (Failure.syntaxError data)
  | some (JVal.object members) =>
    match decodeMembers (Struct.fields : List (Field T)) members target none with
    | (t, none) => Except.ok t
    | (_, some e) => Except.error e
  | some JVal.null => Except.ok target
  | some (JVal.bool _) => Except.error (Failure.unmarshalType (utf8 "bool") [])
  | some (JVal.number _) => Except.error (Failure.unmarshalType (utf8 "number") [])
  | some (JVal.string _) => Except.error (Failure.unmarshalType (utf8 "string") [])
  | some (JVal.array _) => Except.error (Failure.unmarshalType (utf8 "array") [])

end JSON

/-! ## `src/tools/tools.go` -/

/-- One entry of a tool's `properties` map. -/
structure Property where
  name : GoString
  type : GoString
  description : GoString
  deriving DecidableEq

/-- The struct `FunctionDefinition`; `Parameters` is the schema object with its
`properties` and `required` entries (its `type` is always `"object"`). -/
structure FunctionDefinition where
  Name : GoString
  Description : GoString
  Properties : List Property
  Required : List GoString
  deriving DecidableEq

structure Tool where
  Type_ : GoString
  Function : FunctionDefinition
  deriving DecidableEq

def GetBrowserTools : List Tool :=
  [ { Type_ := utf8 "function",
      Function :=
        { Name := utf8 "navigate",
          Description := utf8 "Переходит на указанный URL",
          Properties := [⟨utf8 "url", utf8 "string", utf8 "URL страницы для перехода"⟩],
          Required := [utf8 "url"] } },
    { Type_ := utf8 "function",
      Function :=
        { Name := utf8 "get_page_content",
          Description := utf8 "Получает содержимое текущей страницы",
          Properties := [],
          Required := [] } },
    { Type_ := utf8 "function",
      Function :=
        { Name := utf8 "click_element",
          Description := utf8 "Кликает на элемент страницы по CSS селектору",
          Properties := [⟨utf8 "selector", utf8 "string", utf8 "CSS селектор элемента"⟩],
          Required := [utf8 "selector"] } },
    { Type_ := utf8 "function",
      Function :=
        { Name := utf8 "fill_input",
          Description := utf8 "Заполняет поле ввода текстом",
          Properties :=
            [⟨utf8 "selector", utf8 "string", utf8 "CSS селектор поля ввода"⟩,
             ⟨utf8 "text", utf8 "string", utf8 "Текст для ввода"⟩],
          Required := [utf8 "selector", utf8 "text"] } },
    { Type_ := utf8 "function",
      Function :=
        { Name := utf8 "get_elements",
          Description := utf8 "Получает информацию об элементах на странице по селектору",
          Properties :=
            [⟨utf8 "selector", utf8 "string", utf8 "CSS селектор для поиска элементов"⟩],
          Required := [utf8 "selector"] } },
    { Type_ := utf8 "function",
      Function :=
        { Name := utf8 "get_page_info",
          Description := utf8 "Получает информацию о текущей странице",
          Properties := [],
          Required := [] } },
    { Type_ := utf8 "function",
      Function :=
        { Name := utf8 "wait_for_element",
          Description := utf8 "Ждет появления элемента на странице",
          Properties :=
            [⟨utf8 "selector", utf8 "string", utf8 "CSS селектор элемента"⟩,
             ⟨utf8 "timeout", utf8 "integer", utf8 "Время ожидания в секундах"⟩],
          Required := [utf8 "selector"] } },
    { Type_ := utf8 "function",
      Function :=
        { Name := utf8 "complete_task",
          Description := utf8 "Завершает задачу",
          Properties := [⟨utf8 "result", utf8 "string", utf8 "Результат выполнения задачи"⟩],
          Required := [utf8 "result"] } } ]

structure FunctionCall where
  Name : GoString
  Arguments : GoString
  deriving DecidableEq

/-- A tool call of an assistant message (`openai.ToolCall`, of the same shape as
`tools.ToolCall`). -/
structure ToolCall where
  ID : GoString
  Type_ : GoString
  Function : FunctionCall
  deriving DecidableEq

/-- The function `ParseArguments`: `json.Unmarshal([]byte(argumentsJSON), target)`. The value
is the filled target, or the reason of the error returned. -/
def ParseArguments {T : Type} [JSON.Struct T] (argumentsJSON : GoString) (target : T) :
    Except JSON.Failure T :=
  JSON.Unmarshal argumentsJSON target

structure ToolResult where
  ToolCallID : GoString
  Role : GoString
  Content : GoString
  deriving DecidableEq

def NewToolResult (toolCallID : GoString) (content : GoString) : ToolResult :=
  { ToolCallID := toolCallID, Role := utf8 "tool", Content := content }

structure NavigateArgs where
  URL : GoString
  deriving DecidableEq

structure ClickElementArgs where
  Selector : GoString
  deriving DecidableEq

structure FillInputArgs where
  Selector : GoString
  Text : GoString
  deriving DecidableEq

structure GetElementsArgs where
  Selector : GoString
  deriving DecidableEq

structure WaitForElementArgs where
  Selector : GoString
  Timeout : Int
  deriving DecidableEq

structure CompleteTaskArgs where
  Result : GoString
  deriving DecidableEq

instance : JSON.Struct NavigateArgs where
  zero := { URL := [] }
  fields :=
    [ { name := utf8 "url",
        store := fun v t => (JSON.storeString v t.URL).map (fun x => { t with URL := x }) } ]

instance : JSON.Struct ClickElementArgs where
  zero := { Selector := [] }
  fields :=
    [ { name := utf8 "selector",
        store := fun v t =>
          (JSON.storeString v t.Selector).map (fun x => { t with Selector := x }) } ]

instance : JSON.Struct FillInputArgs where
  zero := { Selector := [], Text := [] }
  fields :=
    [ { name := utf8 "selector",
        store := fun v t =>
          (JSON.storeString v t.Selector).map (fun x => { t with Selector := x }) },
      { name := utf8 "text",
        store := fun v t => (JSON.storeString v t.Text).map (fun x => { t with Text := x }) } ]

instance : JSON.Struct GetElementsArgs where
  zero := { Selector := [] }
  fields :=
    [ { name := utf8 "selector",
        store := fun v t =>
          (JSON.storeString v t.Selector).map (fun x => { t with Selector := x }) } ]

instance : JSON.Struct WaitForElementArgs where
  zero := { Selector := [], Timeout := 0 }
  fields :=
    [ { name := utf8 "selector",
        store := fun v t =>
          (JSON.storeString v t.Selector).map (fun x => { t with Selector := x }) },
      { name := utf8 "timeout",
        store := fun v t =>
          (JSON.storeInt v t.Timeout).map (fun x => { t with Timeout := x }) } ]

instance : JSON.Struct CompleteTaskArgs where
  zero := { Result := [] }
  fields :=
    [ { name := utf8 "result",
        store := fun v t =>
          (JSON.storeString v t.Result).map (fun x => { t with Result := x }) } ]

/-- The function `FormatError`: `fmt.Sprintf("Ошибка: %v", err)`. -/
def FormatError (err : GoError) : GoString := utf8 "Ошибка: " ++ err.Error

/-! ## The collaborators: `go-openai` and `rod` -/

/-- A chat message (`openai.ChatCompletionMessage`), with the fields the agent
reads or writes. -/
structure ChatCompletionMessage where
  Role : GoString
  Content : GoString
  ToolCalls : List ToolCall
  ToolCallID : GoString
  deriving DecidableEq

def ChatMessageRoleSystem : GoString := utf8 "system"
def ChatMessageRoleUser : GoString := utf8 "user"
def ChatMessageRoleAssistant : GoString := utf8 "assistant"
def ChatMessageRoleTool : GoString := utf8 "tool"

/-- The model identifier `openai.GPT4TurboPreview`. -/
def GPT4TurboPreview : GoString := utf8 "gpt-4-turbo-preview"

/-- The request the agent sends (`ToolChoice` is `nil`; the temperature, the
floating-point constant 0.7, is left out). -/
structure ChatCompletionRequest where
  Model : GoString
  Messages : List ChatCompletionMessage
  Tools : List Tool
  deriving DecidableEq

structure ChatCompletionChoice where
  Message : ChatCompletionMessage
  deriving DecidableEq

structure ChatCompletionResponse where
  Choices : List ChatCompletionChoice
  deriving DecidableEq

/-- A `time.Duration`: a number of nanoseconds in 64 bits. -/
abbrev Duration := Int

def Second : Duration := 1000000000

/-- A 64-bit signed integer result: the value modulo 2^64, in [-2^63, 2^63). -/
def wrap64 (n : Int) : Int := (n + 2 ^ 63) % 2 ^ 64 - 2 ^ 63

/-- What `page.Info()` reports of the page, as far as it is read. -/
structure TargetInfo where
  URL : GoString
  Title : GoString
  deriving DecidableEq

/-- An element handle of the page driver (`*rod.Element`) in the page state in
which it was obtained: what each of its read operations reports there. A read
reports an error, or its value; `Attribute` reports `none` (a nil pointer) for an
attribute the element does not have, and `Eval` reports the text
`Value.String()` of the script's result, `none` for a nil result. `object` is the
identity of the element. -/
structure RodElement where
  object : Nat
  Text : Except GoError GoString
  Eval : GoString → Except GoError (Option GoString)
  Attribute : GoString → Except GoError (Option GoString)
  Visible : Except GoError Bool

/-- The behaviour of the collaborators over a world state `σ`: one transition per
call of the LLM client and of the page driver. A page or client is named by its
handle. The last two fields are library functions that are used as given: the
`error` value standing for a failure of `json.Unmarshal` (its wording is
`encoding/json`'s), and `strings.TrimSpace`. -/
structure Env (σ : Type) where
  /-- The call `client.CreateChatCompletion(ctx, req)`. -/
  CreateChatCompletion : Nat → ChatCompletionRequest → σ → Except GoError ChatCompletionResponse × σ
  /-- The call `page.Timeout(d).Navigate(url)`. -/
  pageNavigate : Nat → Duration → GoString → σ → Option GoError × σ
  /-- The call `page.WaitLoad()`. -/
  pageWaitLoad : Nat → σ → Option GoError × σ
  /-- The call `page.HTML()`. -/
  pageHTML : Nat → σ → Except GoError GoString × σ
  /-- The call `page.Element(selector)`, under `page.Timeout(d)` when a duration is given. -/
  pageElement : Nat → Option Duration → GoString → σ → Except GoError RodElement × σ
  /-- The call `page.Timeout(d).Elements(selector)`. -/
  pageElements : Nat → Duration → GoString → σ → Except GoError (List RodElement) × σ
  /-- The call `page.Info()`. -/
  pageInfo : Nat → σ → Except GoError TargetInfo × σ
  /-- The call `element.Click(left, 1)`. -/
  elementClick : RodElement → σ → Option GoError × σ
  /-- The call `element.Input(text)`. -/
  elementInput : RodElement → GoString → σ → Option GoError × σ
  jsonError : JSON.Failure → GoError
  TrimSpace : GoString → GoString

/-- The driver's `Must` variant of a call: the value, or a panic with the error. -/
def must {α : Type} (r : Except GoError α) : Outcome α :=
  match r with
  | Except.ok v => Outcome.ret v
  | Except.error e => Outcome.panic e

/-- The `Must` variant of a call that returns only an `error`. -/
def mustNil (r : Option GoError) : Outcome Unit :=
  match r with
  | none => Outcome.ret ()
  | some e => Outcome.panic e

/-! ## `src/browser/browser.go` -/

/-- The struct `BrowserManager`: the handles of the browser and of its page. -/
structure BrowserManager where
  browser : Nat
  page : Nat
  deriving DecidableEq

structure ElementInfo where
  Selector : GoString
  Tag : GoString
  Text : GoString
  Href : Option GoString
  ID : Option GoString
  Class : Option GoString
  Visible : Bool
  Index : Int
  deriving DecidableEq

namespace BrowserManager

variable {σ : Type}

def Navigate (env : Env σ) (bm : BrowserManager) (url : GoString) (s : σ) : Option GoError × σ :=
  let url : GoString :=
    if !HasPrefix url (utf8 "http://") && !HasPrefix url (utf8 "https://") then
      utf8 "https://" ++ url
    else url
  match env.pageNavigate bm.page (30 * Second) url s with
  | (some err, s1) =>
    (some ⟨utf8 "не удалось загрузить страницу " ++ url ++ utf8 ": " ++ err.Error⟩, s1)
  | (none, s1) =>
    match env.pageWaitLoad bm.page s1 with
    | (some err, s2) =>
      (some ⟨utf8 "не удалось дождаться загрузки страницы " ++ url ++ utf8 ": " ++ err.Error⟩,
        s2)
    | (none, s2) => (none, s2)

def GetPageContent (env : Env σ) (bm : BrowserManager) (s : σ) : Except GoError GoString × σ :=
  match env.pageHTML bm.page s with
  | (Except.error err, s1) =>
    (Except.error ⟨utf8 "не удалось получить HTML: " ++ err.Error⟩, s1)
  | (Except.ok html, s1) => (Except.ok html, s1)

def GetPageText (env : Env σ) (bm : BrowserManager) (s : σ) :
    Outcome (Except GoError GoString) × σ :=
  match env.pageElement bm.page none (utf8 "body") s with
  | (r, s1) =>
    match must r with
    | Outcome.panic v => (Outcome.panic v, s1)
    | Outcome.ret body =>
      match body.Text with
      | Except.error err =>
        (Outcome.ret (Except.error ⟨utf8 "не удалось получить текст страницы: " ++ err.Error⟩),
          s1)
      | Except.ok text => (Outcome.ret (Except.ok text), s1)

def GetPageURL (env : Env σ) (bm : BrowserManager) (s : σ) : Outcome GoString × σ :=
  match env.pageInfo bm.page s with
  | (r, s1) =>
    match must r with
    | Outcome.panic v => (Outcome.panic v, s1)
    | Outcome.ret info => (Outcome.ret info.URL, s1)

def GetPageTitle (env : Env σ) (bm : BrowserManager) (s : σ) : Outcome GoString × σ :=
  match env.pageInfo bm.page s with
  | (r, s1) =>
    match must r with
    | Outcome.panic v => (Outcome.panic v, s1)
    | Outcome.ret info => (Outcome.ret info.Title, s1)

def ClickElement (env : Env σ) (bm : BrowserManager) (selector : GoString) (s : σ) :
    Outcome (Option GoError) × σ :=
  match env.pageElement bm.page (some (10 * Second)) selector s with
  | (Except.error err, s1) =>
    (Outcome.ret
      (some ⟨utf8 "не удалось найти элемент с селектором " ++ selector ++ utf8 ": " ++ err.Error⟩),
      s1)
  | (Except.ok element, s1) =>
    match env.elementClick element s1 with
    | (r, s2) =>
      match mustNil r with
      | Outcome.panic v => (Outcome.panic v, s2)
      | Outcome.ret _ => (Outcome.ret none, s2)

def FillInput (env : Env σ) (bm : BrowserManager) (selector : GoString) (text : GoString)
    (s : σ) : Option GoError × σ :=
  match env.pageElement bm.page (some (10 * Second)) selector s with
  | (Except.error err, s1) =>
    (some ⟨utf8 "не удалось найти поле ввода с селектором " ++ selector ++ utf8 ": " ++ err.Error⟩,
      s1)
  | (Except.ok element, s1) =>
    match env.elementInput element text s1 with
    | (some err, s2) => (some ⟨utf8 "не удалось ввести текст в поле: " ++ err.Error⟩, s2)
    | (none, s2) => (none, s2)

/-- The value a call leaves in a variable whose `error` result is discarded
(`x, _ := f()`): the driver returns the zero value next to an error. -/
def orZero {α : Type} (zero : α) (r : Except GoError α) : α :=
  match r with
  | Except.ok v => v
  | Except.error _ => zero

/-- The test `err == nil && p != nil && *p != ""` on what `elem.Attribute` returned:
the attribute's value when the test passes. -/
def nonEmptyAttribute (r : Except GoError (Option GoString)) : Option GoString :=
  match r with
  | Except.ok (some v) => if v ≠ [] then some v else none
  | _ => none

def generateSelector (elem : RodElement) (baseSelector : GoString) (index : Int) : GoString :=
  match nonEmptyAttribute (elem.Attribute (utf8 "id")) with
  | some id => utf8 "#" ++ id
  | none =>
    match nonEmptyAttribute (elem.Attribute (utf8 "data-id")) with
    | some dataID => utf8 "[data-id=\x27" ++ dataID ++ utf8 "\x27]"
    | none => baseSelector ++ utf8 ":nth-child(" ++ fmtInt (index + 1) ++ utf8 ")"

/-- The body of the loop of `GetElements` for the element at position `i`. -/
def elementInfo (env : Env σ) (selector : GoString) (i : Nat) (elem : RodElement) :
    ElementInfo :=
  let text := orZero [] elem.Text
  let tag : GoString :=
    match elem.Eval (utf8 "() => this.tagName.toLowerCase()") with
    | Except.ok (some tagStr) => if TrimQuotes tagStr ≠ [] then TrimQuotes tagStr else []
    | _ => []
  let href := orZero none (elem.Attribute (utf8 "href"))
  let id := orZero none (elem.Attribute (utf8 "id"))
  let cls := orZero none (elem.Attribute (utf8 "class"))
  let visible := orZero false elem.Visible
  let uniqueSelector := generateSelector elem selector (i : Int)
  { Selector := uniqueSelector, Tag := tag, Text := env.TrimSpace text, Href := href,
    ID := id, Class := cls, Visible := visible, Index := (i : Int) }

/-- The loop `for i, elem := range elements` of `GetElements`, from position `i` on. -/
def collect (env : Env σ) (selector : GoString) : Nat → List RodElement → List ElementInfo
  | _, [] => []
  | i, elem :: rest => elementInfo env selector i elem :: collect env selector (i + 1) rest

def GetElements (env : Env σ) (bm : BrowserManager) (selector : GoString) (s : σ) :
    Except GoError (List ElementInfo) × σ :=
  match env.pageElements bm.page (10 * Second) selector s with
  | (Except.error err, s1) =>
    (Except.error
      ⟨utf8 "не удалось найти элементы с селектором " ++ selector ++ utf8 ": " ++ err.Error⟩,
      s1)
  | (Except.ok elements, s1) => (Except.ok (collect env selector 0 elements), s1)

def WaitForElement (env : Env σ) (bm : BrowserManager) (selector : GoString)
    (timeout : Duration) (s : σ) : Option GoError × σ :=
  match env.pageElement bm.page (some timeout) selector s with
  | (Except.error err, s1) => (some err, s1)
  | (Except.ok _, s1) => (none, s1)

end BrowserManager

/-! ## `src/agent/agent.go` -/

/-- The struct `AIAgent`; `client` is the handle of the `*openai.Client`. -/
structure AIAgent where
  client : Nat
  browser : BrowserManager
  conversation : List ChatCompletionMessage
  maxIterations : Int
  deriving DecidableEq

namespace AIAgent

variable {σ : Type}

def initializeSystemPrompt (a : AIAgent) : AIAgent :=
  { a with
    conversation :=
      [ { Role := ChatMessageRoleSystem, Content := [], ToolCalls := [], ToolCallID := [] } ] }

/-- The constructor `NewAIAgent`; `apiKey` is the value of `os.Getenv("OPENAI_API_KEY")` and
`client` the handle `openai.NewClient(apiKey)` returns. -/
def NewAIAgent (apiKey : GoString) (client : Nat) (browserManager : BrowserManager) :
    Except GoError AIAgent :=
  if apiKey = [] then
    Except.error ⟨utf8 "OPENAI_API_KEY не установлен. Установите переменную окружения"⟩
  else
    let agent : AIAgent :=
      { client := client, browser := browserManager, conversation := [], maxIterations := 20 }
    Except.ok (initializeSystemPrompt agent)

/-- The function `truncateString`; `maxLen` is a non-negative constant at every call. -/
def truncateString (s : GoString) (maxLen : Nat) : GoString :=
  if s.length ≤ maxLen then s else s.take maxLen ++ utf8 "..."

def convertToolsToOpenAI (tools : List Tool) : List Tool :=
  tools.map (fun tool =>
    { Type_ := utf8 "function",
      Function :=
        { Name := tool.Function.Name,
          Description := tool.Function.Description,
          Properties := tool.Function.Properties,
          Required := tool.Function.Required } })

/-- The text `elemInfo` that `get_elements` writes for the element at position `i`
(without the line break). -/
def elemInfo (i : Nat) (elem : ElementInfo) : GoString :=
  let base : GoString :=
    fmtInt ((i : Int) + 1) ++ utf8 ". Селектор: " ++ elem.Selector ++ utf8 ", Тег: " ++ elem.Tag
      ++ utf8 ", Текст: " ++ truncateString elem.Text 100
  let withHref : GoString :=
    match elem.Href with
    | some href => base ++ utf8 ", Ссылка: " ++ href
    | none => base
  match elem.ID with
  | some id => withHref ++ utf8 ", ID: " ++ id
  | none => withHref

/-- The loop `for i, elem := range elements` of `get_elements`, from position `i`
on: what it writes to the builder. `total` is `len(elements)`. -/
def writeElements (total : Nat) : Nat → List ElementInfo → GoString
  | _, [] => []
  | i, elem :: rest =>
    if i ≥ 10 then utf8 "... и еще " ++ fmtInt ((total : Int) - 10) ++ utf8 " элементов\n"
    else elemInfo i elem ++ utf8 "\n" ++ writeElements total (i + 1) rest

/-- The summary `info.String()` of `get_elements` for a non-empty result. -/
def elementsSummary (elements : List ElementInfo) : GoString :=
  utf8 "Найдено элементов: " ++ fmtInt (elements.length : Int) ++ utf8 "\n"
    ++ writeElements elements.length 0 elements

/-- The `timeout` that the `wait_for_element` case computes: ten seconds, or
`time.Duration(args.Timeout) * time.Second` (a 64-bit product) for a positive
`args.Timeout`. -/
def waitTimeout (args : WaitForElementArgs) : Duration :=
  if args.Timeout > 0 then wrap64 (args.Timeout * Second) else 10 * Second

def executeTool (env : Env σ) (a : AIAgent) (toolCall : ToolCall) (s : σ) :
    Outcome ToolResult × σ :=
  if toolCall.Function.Name = utf8 "navigate" then
    match ParseArguments toolCall.Function.Arguments (JSON.Struct.zero : NavigateArgs) with
    | Except.error err =>
      (Outcome.ret (NewToolResult toolCall.ID (FormatError (env.jsonError err))), s)
    | Except.ok args =>
      match a.browser.Navigate env args.URL s with
      | (some err, s1) => (Outcome.ret (NewToolResult toolCall.ID (FormatError err)), s1)
      | (none, s1) =>
        (Outcome.ret
          (NewToolResult toolCall.ID (utf8 "Успешно перешел на страницу: " ++ args.URL)), s1)
  else if toolCall.Function.Name = utf8 "get_page_content" then
    match a.browser.GetPageContent env s with
    | (Except.error err, s1) => (Outcome.ret (NewToolResult toolCall.ID (FormatError err)), s1)
    | (Except.ok html, s1) =>
      match a.browser.GetPageText env s1 with
      | (Outcome.panic v, s2) => (Outcome.panic v, s2)
      | (Outcome.ret (Except.error err), s2) =>
        (Outcome.ret (NewToolResult toolCall.ID (FormatError err)), s2)
      | (Outcome.ret (Except.ok text), s2) =>
        (Outcome.ret
          (NewToolResult toolCall.ID
            (utf8 "HTML (первые 5000 символов): " ++ truncateString html 5000
              ++ utf8 "\n\nТекст страницы (первые 3000 символов): "
              ++ truncateString text 3000)),
          s2)
  else if toolCall.Function.Name = utf8 "get_page_info" then
    match a.browser.GetPageURL env s with
    | (Outcome.panic v, s1) => (Outcome.panic v, s1)
    | (Outcome.ret url, s1) =>
      match a.browser.GetPageTitle env s1 with
      | (Outcome.panic v, s2) => (Outcome.panic v, s2)
      | (Outcome.ret title, s2) =>
        (Outcome.ret
          (NewToolResult toolCall.ID (utf8 "URL: " ++ url ++ utf8 "\nЗаголовок: " ++ title)), s2)
  else if toolCall.Function.Name = utf8 "click_element" then
    match ParseArguments toolCall.Function.Arguments (JSON.Struct.zero : ClickElementArgs) with
    | Except.error err =>
      (Outcome.ret (NewToolResult toolCall.ID (FormatError (env.jsonError err))), s)
    | Except.ok args =>
      match a.browser.ClickElement env args.Selector s with
      | (Outcome.panic v, s1) => (Outcome.panic v, s1)
      | (Outcome.ret (some err), s1) =>
        (Outcome.ret (NewToolResult toolCall.ID (FormatError err)), s1)
      | (Outcome.ret none, s1) =>
        (Outcome.ret
          (NewToolResult toolCall.ID (utf8 "Успешно кликнул на элемент: " ++ args.Selector)), s1)
  else if toolCall.Function.Name = utf8 "fill_input" then
    match ParseArguments toolCall.Function.Arguments (JSON.Struct.zero : FillInputArgs) with
    | Except.error err =>
      (Outcome.ret (NewToolResult toolCall.ID (FormatError (env.jsonError err))), s)
    | Except.ok args =>
      match a.browser.FillInput env args.Selector args.Text s with
      | (some err, s1) => (Outcome.ret (NewToolResult toolCall.ID (FormatError err)), s1)
      | (none, s1) =>
        (Outcome.ret
          (NewToolResult toolCall.ID
            (utf8 "Успешно заполнил поле " ++ args.Selector ++ utf8 " текстом: " ++ args.Text)),
          s1)
  else if toolCall.Function.Name = utf8 "get_elements" then
    match ParseArguments toolCall.Function.Arguments (JSON.Struct.zero : GetElementsArgs) with
    | Except.error err =>
      (Outcome.ret (NewToolResult toolCall.ID (FormatError (env.jsonError err))), s)
    | Except.ok args =>
      match a.browser.GetElements env args.Selector s with
      | (Except.error err, s1) => (Outcome.ret (NewToolResult toolCall.ID (FormatError err)), s1)
      | (Except.ok elements, s1) =>
        if elements.length = 0 then
          (Outcome.ret
            (NewToolResult toolCall.ID
              (utf8 "Элементы с селектором \x27" ++ args.Selector ++ utf8 "\x27 не найдены")),
            s1)
        else (Outcome.ret (NewToolResult toolCall.ID (elementsSummary elements)), s1)
  else if toolCall.Function.Name = utf8 "wait_for_element" then
    match ParseArguments toolCall.Function.Arguments (JSON.Struct.zero : WaitForElementArgs) with
    | Except.error err =>
      (Outcome.ret (NewToolResult toolCall.ID (FormatError (env.jsonError err))), s)
    | Except.ok args =>
      match a.browser.WaitForElement env args.Selector (waitTimeout args) s with
      | (some err, s1) => (Outcome.ret (NewToolResult toolCall.ID (FormatError err)), s1)
      | (none, s1) =>
        (Outcome.ret
          (NewToolResult toolCall.ID (utf8 "Элемент " ++ args.Selector ++ utf8 " появился")), s1)
  else if toolCall.Function.Name = utf8 "complete_task" then
    match ParseArguments toolCall.Function.Arguments (JSON.Struct.zero : CompleteTaskArgs) with
    | Except.error err =>
      (Outcome.ret (NewToolResult toolCall.ID (FormatError (env.jsonError err))), s)
    | Except.ok args =>
      (Outcome.ret (NewToolResult toolCall.ID (utf8 "Задача завершена: " ++ args.Result)), s)
  else
    (Outcome.ret
      (NewToolResult toolCall.ID (utf8 "Неизвестный инструмент: " ++ toolCall.Function.Name)), s)

/-- How the loop over one batch of tool calls ends: by `return args.Result, nil`,
by a panic, or by running out of tool calls. -/
inductive BatchEnd where
  | returned (result : GoString)
  | panicked (v : GoError)
  | exhausted
  deriving DecidableEq

/-- The loop `for _, toolCall := range assistantMessage.ToolCalls` of `ExecuteTask`. -/
def runToolCalls (env : Env σ) : List ToolCall → AIAgent → σ → BatchEnd × AIAgent × σ
  | [], a, s => (BatchEnd.exhausted, a, s)
  | toolCall :: rest, a, s =>
    match executeTool env a toolCall s with
    | (Outcome.panic v, s1) => (BatchEnd.panicked v, a, s1)
    | (Outcome.ret result, s1) =>
      let a1 : AIAgent :=
        { a with
          conversation :=
            a.conversation ++
              [ { Role := ChatMessageRoleTool, Content := result.Content, ToolCalls := [],
                  ToolCallID := toolCall.ID } ] }
      if toolCall.Function.Name = utf8 "complete_task" then
        match ParseArguments toolCall.Function.Arguments (JSON.Struct.zero : CompleteTaskArgs) with
        | Except.ok args => (BatchEnd.returned args.Result, a1, s1)
        | Except.error _ => runToolCalls env rest a1 s1
      else runToolCalls env rest a1 s1

/-- The error `ExecuteTask` returns when the loop ends. -/
def budgetError (maxIterations : Int) : GoError :=
  ⟨utf8 "достигнуто максимальное количество итераций (" ++ fmtInt maxIterations
    ++ utf8 "). Задача может быть слишком сложной или требовать дополнительной информации"⟩

/-- The panic of `resp.Choices[0]` on an empty `Choices`. -/
def indexOutOfRange : GoError := ⟨utf8 "runtime error: index out of range [0] with length 0"⟩

/-- The loop `for iteration := 0; iteration < a.maxIterations; iteration++` of
`ExecuteTask` with `remaining = a.maxIterations - iteration` iterations to go,
and the `return` after it. The result is what `ExecuteTask` returns (the result
string, or the error), or a panic. -/
def iterate (env : Env σ) (availableTools : List Tool) :
    Nat → AIAgent → σ → Outcome (Except GoError GoString) × AIAgent × σ
  | 0, a, s => (Outcome.ret (Except.error (budgetError a.maxIterations)), a, s)
  | remaining + 1, a, s =>
    let req : ChatCompletionRequest :=
      { Model := GPT4TurboPreview, Messages := a.conversation, Tools := availableTools }
    match env.CreateChatCompletion a.client req s with
    | (Except.error err, s1) =>
      (Outcome.ret (Except.error ⟨utf8 "ошибка запроса к OpenAI: " ++ err.Error⟩), a, s1)
    | (Except.ok resp, s1) =>
      match resp.Choices with
      | [] => (Outcome.panic indexOutOfRange, a, s1)
      | choice :: _ =>
        let assistantMessage := choice.Message
        let a1 : AIAgent := { a with conversation := a.conversation ++ [assistantMessage] }
        if assistantMessage.ToolCalls.length = 0 then
          if assistantMessage.Content ≠ [] then
            (Outcome.ret (Except.ok assistantMessage.Content), a1, s1)
          else iterate env availableTools remaining a1 s1
        else
          match runToolCalls env assistantMessage.ToolCalls a1 s1 with
          | (BatchEnd.returned result, a2, s2) => (Outcome.ret (Except.ok result), a2, s2)
          | (BatchEnd.panicked v, a2, s2) => (Outcome.panic v, a2, s2)
          | (BatchEnd.exhausted, a2, s2) => iterate env availableTools remaining a2 s2

def ExecuteTask (env : Env σ) (a : AIAgent) (task : GoString) (s : σ) :
    Outcome (Except GoError GoString) × AIAgent × σ :=
  let a0 : AIAgent :=
    { a with
      conversation :=
        a.conversation ++
          [ { Role := ChatMessageRoleUser, Content := task, ToolCalls := [], ToolCallID := [] } ] }
  let availableTools := convertToolsToOpenAI GetBrowserTools
  iterate env availableTools a0.maxIterations.toNat a0 s

def GetConversationHistory (a : AIAgent) : List ChatCompletionMessage := a.conversation

def ClearHistory (a : AIAgent) : AIAgent :=
  initializeSystemPrompt { a with conversation := [] }

end AIAgent

/-! ## Observing the collaborators' calls -/

/-- A call made to a collaborator, with its arguments. -/
inductive Event where
  | createChatCompletion (client : Nat) (req : ChatCompletionRequest)
  | navigate (page : Nat) (timeout : Duration) (url : GoString)
  | waitLoad (page : Nat)
  | html (page : Nat)
  | element (page : Nat) (timeout : Option Duration) (selector : GoString)
  | elements (page : Nat) (timeout : Duration) (selector : GoString)
  | info (page : Nat)
  | click (object : Nat)
  | input (object : Nat) (text : GoString)
  deriving DecidableEq

def Event.isLLM : Event → Bool
  | Event.createChatCompletion _ _ => true
  | _ => false

def Event.isBrowser (e : Event) : Bool := !e.isLLM

def Event.isNavigate : Event → Bool
  | Event.navigate _ _ _ => true
  | _ => false

/-- The number of LLM calls in a log of calls. -/
def llmCalls (log : List Event) : Nat := log.countP Event.isLLM

/-- The same collaborators, with every call appended to a log kept next to the
world state. The log is a pure observer: the collaborators behave as they do
without it. -/
def recording {σ : Type} (env : Env σ) : Env (σ × List Event) where
  CreateChatCompletion := fun client req w =>
    ((env.CreateChatCompletion client req w.1).1,
      ((env.CreateChatCompletion client req w.1).2, w.2 ++ [Event.createChatCompletion client req]))
  pageNavigate := fun page d url w =>
    ((env.pageNavigate page d url w.1).1,
      ((env.pageNavigate page d url w.1).2, w.2 ++ [Event.navigate page d url]))
  pageWaitLoad := fun page w =>
    ((env.pageWaitLoad page w.1).1, ((env.pageWaitLoad page w.1).2, w.2 ++ [Event.waitLoad page]))
  pageHTML := fun page w =>
    ((env.pageHTML page w.1).1, ((env.pageHTML page w.1).2, w.2 ++ [Event.html page]))
  pageElement := fun page d selector w =>
    ((env.pageElement page d selector w.1).1,
      ((env.pageElement page d selector w.1).2, w.2 ++ [Event.element page d selector]))
  pageElements := fun page d selector w =>
    ((env.pageElements page d selector w.1).1,
      ((env.pageElements page d selector w.1).2, w.2 ++ [Event.elements page d selector]))
  pageInfo := fun page w =>
    ((env.pageInfo page w.1).1, ((env.pageInfo page w.1).2, w.2 ++ [Event.info page]))
  elementClick := fun element w =>
    ((env.elementClick element w.1).1,
      ((env.elementClick element w.1).2, w.2 ++ [Event.click element.object]))
  elementInput := fun element text w =>
    ((env.elementInput element text w.1).1,
      ((env.elementInput element text w.1).2, w.2 ++ [Event.input element.object text]))
  jsonError := env.jsonError
  TrimSpace := env.TrimSpace

/-- The URLs of the navigation calls in a log, in order. -/
def navigatedURLs : List Event → List GoString
  | [] => []
  | Event.navigate _ _ url :: rest => url :: navigatedURLs rest
  | _ :: rest => navigatedURLs rest

/-! ## Concrete worlds, for evaluating the program on given inputs -/

namespace Fixture

/-- An element with no attributes and no text. -/
def element : RodElement :=
  { object := 7, Text := Except.ok [], Eval := fun _ => Except.ok none,
    Attribute := fun _ => Except.ok none, Visible := Except.ok true }

/-- An element whose only attribute is an empty `data-id`. -/
def emptyDataID : RodElement :=
  { object := 8, Text := Except.ok [], Eval := fun _ => Except.ok none,
    Attribute := fun name => if name = utf8 "data-id" then Except.ok (some []) else Except.ok none,
    Visible := Except.ok true }

/-- Go's `strings.TrimSpace` on ASCII text. -/
def trimSpace (s : GoString) : GoString :=
  let sp : UInt8 → Bool := fun c => c == 0x20 || (0x09 ≤ c && c ≤ 0x0d)
  ((s.dropWhile sp).reverse.dropWhile sp).reverse

/-- A world whose state counts the LLM calls made so far: the LLM answers its
`n`-th call (from 0) with the one message `reply n`; the page has every element
asked for, a click reports `click`, and every other driver call succeeds. The
text of a syntax error is the one `encoding/json` gives for an input that ends
too early, the only malformed input this world is used with. -/
def env (reply : Nat → ChatCompletionMessage) (click : Option GoError) : Env Nat where
  CreateChatCompletion := fun _ _ n => (Except.ok { Choices := [{ Message := reply n }] }, n + 1)
  pageNavigate := fun _ _ _ n => (none, n)
  pageWaitLoad := fun _ n => (none, n)
  pageHTML := fun _ n => (Except.ok (utf8 "<html></html>"), n)
  pageElement := fun _ _ _ n => (Except.ok element, n)
  pageElements := fun _ _ _ n => (Except.ok [], n)
  pageInfo := fun _ n => (Except.ok { URL := utf8 "about:blank", Title := [] }, n)
  elementClick := fun _ n => (click, n)
  elementInput := fun _ _ n => (none, n)
  jsonError := fun f =>
    match f with
    | JSON.Failure.syntaxError _ => ⟨utf8 "unexpected end of JSON input"⟩
    | JSON.Failure.unmarshalType value field =>
      ⟨utf8 "json: cannot unmarshal " ++ value ++ utf8 " into Go struct field " ++ field⟩
  TrimSpace := trimSpace

/-- The same world with a silent LLM and a page on which every selector matches
the given elements. -/
def page (elements : List RodElement) : Env Nat :=
  { env (fun _ => { Role := ChatMessageRoleAssistant, Content := [], ToolCalls := [],
                    ToolCallID := [] }) none with
    pageElements := fun _ _ _ n => (Except.ok elements, n) }

/-- An agent as `NewAIAgent` builds it, with the given iteration budget. -/
def agent (maxIterations : Int) : AIAgent :=
  { client := 1, browser := { browser := 2, page := 3 },
    conversation :=
      [{ Role := ChatMessageRoleSystem, Content := [], ToolCalls := [], ToolCallID := [] }],
    maxIterations := maxIterations }

/-- An assistant message with the given content and tool calls. -/
def assistant (content : GoString) (calls : List ToolCall) : ChatCompletionMessage :=
  { Role := ChatMessageRoleAssistant, Content := content, ToolCalls := calls, ToolCallID := [] }

/-- A tool call with the given id, tool name and argument payload. -/
def call (id name arguments : String) : ToolCall :=
  { ID := utf8 id, Type_ := utf8 "function",
    Function := { Name := utf8 name, Arguments := utf8 arguments } }

/-- The error a click reports on an element that cannot be clicked; its text
stands for whatever the driver says. -/
def notInteractable : GoError := ⟨utf8 "element is not interactable"⟩

end Fixture

/-! ## Definitions used to state the theorems -/

/-- A list with its positions, counted from `i`. -/
def numberedFrom {α : Type} : Nat → List α → List (Nat × α)
  | _, [] => []
  | i, x :: xs => (i, x) :: numberedFrom (i + 1) xs

/-- The error of a call of `ParseArguments`, if it returned one. -/
def failure {T : Type} (r : Except JSON.Failure T) : Option JSON.Failure :=
  match r with
  | Except.ok _ => none
  | Except.error f => some f

/-- The error `ParseArguments` returns in `executeTool` for a tool name and an
argument payload: each of the six tools that take arguments parses the payload
into its own struct; `get_page_content`, `get_page_info` and unknown names do
not parse it. -/
def argumentsError (name payload : GoString) : Option JSON.Failure :=
  if name = utf8 "navigate" then
    failure (ParseArguments payload (JSON.Struct.zero : NavigateArgs))
  else if name = utf8 "click_element" then
    failure (ParseArguments payload (JSON.Struct.zero : ClickElementArgs))
  else if name = utf8 "fill_input" then
    failure (ParseArguments payload (JSON.Struct.zero : FillInputArgs))
  else if name = utf8 "get_elements" then
    failure (ParseArguments payload (JSON.Struct.zero : GetElementsArgs))
  else if name = utf8 "wait_for_element" then
    failure (ParseArguments payload (JSON.Struct.zero : WaitForElementArgs))
  else if name = utf8 "complete_task" then
    failure (ParseArguments payload (JSON.Struct.zero : CompleteTaskArgs))
  else none

/-- The six tools whose handler parses the argument payload. -/
def takesArguments (name : GoString) : Bool :=
  name = utf8 "navigate" || name = utf8 "click_element" || name = utf8 "fill_input"
    || name = utf8 "get_elements" || name = utf8 "wait_for_element"
    || name = utf8 "complete_task"

/-- The turn `ExecuteTask` appends for a tool call and the content of its result. -/
def toolTurn (toolCall : ToolCall) (content : GoString) : ChatCompletionMessage :=
  { Role := ChatMessageRoleTool, Content := content, ToolCalls := [],
    ToolCallID := toolCall.ID }

/-- The log `log1` continues `log` with browser calls only. -/
def BrowserOnly (log log1 : List Event) : Prop :=
  ∃ evs : List Event, log1 = log ++ evs ∧ ∀ e ∈ evs, e.isLLM = false

/-- The ids of the tool calls of a message, in order. -/
def toolCallIDs (m : ChatCompletionMessage) : List GoString := m.ToolCalls.map (fun c => c.ID)

/-- The transcript invariant, as the claim words it: every `tool` turn comes after
an assistant turn with only `tool` turns in between (so that assistant turn is
the nearest preceding one), its `ToolCallID` is the id of a tool call listed in
that assistant turn, and the `tool` turns from that assistant turn up to and
including this one carry, in order, the ids of a prefix of the assistant turn's
tool-call list. -/
def ToolTurnsAnswer (conv : List ChatCompletionMessage) : Prop :=
  ∀ (before : List ChatCompletionMessage) (m : ChatCompletionMessage)
    (after : List ChatCompletionMessage),
    conv = before ++ m :: after → m.Role = ChatMessageRoleTool →
    ∃ (earlier : List ChatCompletionMessage) (am : ChatCompletionMessage)
      (between : List ChatCompletionMessage),
      before = earlier ++ am :: between
      ∧ am.Role = ChatMessageRoleAssistant
      ∧ (∀ t ∈ between, t.Role = ChatMessageRoleTool)
      ∧ (∃ c ∈ am.ToolCalls, c.ID = m.ToolCallID)
      ∧ (between ++ [m]).map (fun t => t.ToolCallID) <+: toolCallIDs am

/-- The same invariant as a left-to-right scan; `pending` holds the ids of the
nearest preceding assistant turn that no `tool` turn has answered yet. -/
def scanOK : List GoString → List ChatCompletionMessage → Prop
  | _, [] => True
  | pending, m :: rest =>
    if m.Role = ChatMessageRoleTool then
      match pending with
      | id :: ids => m.ToolCallID = id ∧ scanOK ids rest
      | [] => False
    else if m.Role = ChatMessageRoleAssistant then scanOK (toolCallIDs m) rest
    else scanOK [] rest

/-- The ids still pending after a scan. -/
def pendingAfter : List GoString → List ChatCompletionMessage → List GoString
  | pending, [] => pending
  | pending, m :: rest =>
    if m.Role = ChatMessageRoleTool then
      match pending with
      | _ :: ids => pendingAfter ids rest
      | [] => pendingAfter [] rest
    else if m.Role = ChatMessageRoleAssistant then pendingAfter (toolCallIDs m) rest
    else pendingAfter [] rest

/-- The agents reachable from a freshly constructed one by calls of `ExecuteTask`
(for any task, in any state of the world) and of `ClearHistory`. -/
inductive Reachable {σ : Type} (env : Env σ) : AIAgent → Prop where
  | fresh (apiKey : GoString) (client : Nat) (bm : BrowserManager) (a : AIAgent) :
      AIAgent.NewAIAgent apiKey client bm = Except.ok a → Reachable env a
  | executeTask (a : AIAgent) (task : GoString) (s : σ) :
      Reachable env a → Reachable env (AIAgent.ExecuteTask env a task s).2.1
  | clearHistory (a : AIAgent) : Reachable env a → Reachable env (AIAgent.ClearHistory a)

/-- The number of characters of a text in UTF-8: its bytes that are not
continuation bytes (`10xxxxxx`, 0x80 to 0xbf). -/
def characterCount (s : GoString) : Nat :=
  s.countP (fun b => !(0x80 ≤ b.toNat && b.toNat ≤ 0xbf))

/-- Text in which every character is one byte: every byte is below 0x80 (ASCII). -/
def isASCII (s : GoString) : Bool := s.all (fun b => b.toNat < 0x80)

namespace Fixture

/-- A reply of the LLM that carries the role `tool`. -/
def toolRoleReply : ChatCompletionMessage :=
  { Role := ChatMessageRoleTool, Content := utf8 "hi", ToolCalls := [], ToolCallID := utf8 "x" }

/-- The `system` turn of a new agent and a `user` turn. -/
def systemTurn : ChatCompletionMessage :=
  { Role := ChatMessageRoleSystem, Content := [], ToolCalls := [], ToolCallID := [] }

def userTurn (task : GoString) : ChatCompletionMessage :=
  { Role := ChatMessageRoleUser, Content := task, ToolCalls := [], ToolCallID := [] }

/-- The world of `env` with a page whose HTML is 5001 bytes `a`. -/
def longPage : Env Nat :=
  { env (fun _ => assistant [] []) none with
    pageHTML := fun _ n => (Except.ok (List.replicate 5001 0x61), n) }

/-- The world of `env` with a page whose body text is 3001 bytes `b`. -/
def longText : Env Nat :=
  { env (fun _ => assistant [] []) none with
    pageElement := fun _ _ _ n =>
      (Except.ok { element with Text := Except.ok (List.replicate 3001 0x62) }, n) }

/-- An LLM that asks for the page's info and its elements in its first reply
and completes the task in every later one. -/
def twoRounds (n : Nat) : ChatCompletionMessage :=
  assistant []
    (if n = 0 then
      [call "call_1" "get_page_info" "\x7b\x7d",
       call "call_2" "get_elements" "\x7b\"selector\":\"a\"\x7d"]
    else [call "call_3" "complete_task" "\x7b\"result\":\"done\"\x7d"])

end Fixture

/-! ## Theorems -/

open AIAgent

/-- C3. Agent loop, a reply without tool calls. When the LLM answers the call of
an iteration with a reply that has no tool calls, then (a) if the reply's content
is not empty the run returns success with exactly that content, the reply
appended to the transcript, and the only collaborator call made is this one LLM
call; (b) if the content is empty nothing is returned: the run goes on as the
loop with one iteration fewer to go (the next iteration), from the transcript
with the reply appended, again with only this one LLM call made and no tool
dispatched. Both are stated for the collaborators as they are and for the
collaborators with their calls recorded. -/
theorem iterate_reply_without_tool_calls {σ : Type} (env : Env σ) (tools : List Tool)
    (remaining : Nat) (a : AIAgent) (s : σ) (log : List Event)
    (resp : ChatCompletionResponse) (s1 : σ) (choice : ChatCompletionChoice)
    (others : List ChatCompletionChoice)
    (hcall : env.CreateChatCompletion a.client
      { Model := GPT4TurboPreview, Messages := a.conversation, Tools := tools } s
        = (Except.ok resp, s1))
    (hchoice : resp.Choices = choice :: others)
    (hnone : choice.Message.ToolCalls = []) :
    (choice.Message.Content ≠ [] →
      iterate env tools (remaining + 1) a s
          = (Outcome.ret (Except.ok choice.Message.Content),
              { a with conversation := a.conversation ++ [choice.Message] }, s1)
      ∧ iterate (recording env) tools (remaining + 1) a (s, log)
          = (Outcome.ret (Except.ok choice.Message.Content),
              { a with conversation := a.conversation ++ [choice.Message] },
              (s1, log ++ [Event.createChatCompletion a.client
                { Model := GPT4TurboPreview, Messages := a.conversation, Tools := tools }])))
    ∧ (choice.Message.Content = [] →
      iterate env tools (remaining + 1) a s
          = iterate env tools remaining
              { a with conversation := a.conversation ++ [choice.Message] } s1
      ∧ iterate (recording env) tools (remaining + 1) a (s, log)
          = iterate (recording env) tools remaining
              { a with conversation := a.conversation ++ [choice.Message] }
              (s1, log ++ [Event.createChatCompletion a.client
                { Model := GPT4TurboPreview, Messages := a.conversation, Tools := tools }])) := by
  constructor
  · intro hc
    constructor
    · simp [iterate, hcall, hchoice, hnone, hc]
    · simp [iterate, recording, hcall, hchoice, hnone, hc]
  · intro hc
    constructor
    · simp [iterate, hcall, hchoice, hnone, hc]
    · simp [iterate, recording, hcall, hchoice, hnone, hc]

/-- The witness of `iterate_reply_without_tool_calls`: the LLM answers "done"
without tool calls; the run returns "done" after that one call. -/
theorem iterate_reply_without_tool_calls_witness :
    (Fixture.env (fun _ => Fixture.assistant (utf8 "done") []) none).CreateChatCompletion
        (Fixture.agent 20).client
        { Model := GPT4TurboPreview, Messages := (Fixture.agent 20).conversation,
          Tools := convertToolsToOpenAI GetBrowserTools } 0
      = (Except.ok { Choices := [{ Message := Fixture.assistant (utf8 "done") [] }] }, 1)
    ∧ iterate (recording (Fixture.env (fun _ => Fixture.assistant (utf8 "done") []) none))
        (convertToolsToOpenAI GetBrowserTools) 1 (Fixture.agent 20) (0, [])
      = (Outcome.ret (Except.ok (utf8 "done")),
          { Fixture.agent 20 with
            conversation :=
              (Fixture.agent 20).conversation ++ [Fixture.assistant (utf8 "done") []] },
          (1, [] ++ [Event.createChatCompletion (Fixture.agent 20).client
            { Model := GPT4TurboPreview, Messages := (Fixture.agent 20).conversation,
              Tools := convertToolsToOpenAI GetBrowserTools }])) :=
  ⟨rfl,
    ((iterate_reply_without_tool_calls
      (Fixture.env (fun _ => Fixture.assistant (utf8 "done") []) none)
      (convertToolsToOpenAI GetBrowserTools) 0 (Fixture.agent 20) 0 []
      { Choices := [{ Message := Fixture.assistant (utf8 "done") [] }] } 1
      { Message := Fixture.assistant (utf8 "done") [] } [] rfl rfl rfl).1 (by decide)).2⟩

/-! ### Tool dispatch -/

/-- C5, the failing input. The tool call `click_element` with the payload
`{"selector":"#a"}`, on a page that has the element but where the click reports
an error: `MustClick` panics, so `executeTool` returns no `ToolResult`. -/
theorem executeTool_click_element_panics :
    (executeTool (Fixture.env (fun _ => Fixture.assistant [] []) (some Fixture.notInteractable))
        (Fixture.agent 20)
        (Fixture.call "call_1" "click_element" "\x7b\"selector\":\"#a\"\x7d") 0).1
      = Outcome.panic Fixture.notInteractable := by
  decide

/-- A call of `ParseArguments` whose error is `f` returned `f`. -/
theorem failure_eq_some {T : Type} (r : Except JSON.Failure T) (f : JSON.Failure)
    (h : failure r = some f) : r = Except.error f := by
  cases r with
  | ok v => simp [failure] at h
  | error e => simp [failure] at h; rw [h]

/-- A rejected payload: `executeTool` returns the formatted error and calls no
collaborator. -/
theorem executeTool_rejected {σ : Type} (env : Env σ) (a : AIAgent) (toolCall : ToolCall)
    (s : σ) (f : JSON.Failure)
    (hrej : argumentsError toolCall.Function.Name toolCall.Function.Arguments = some f) :
    executeTool env a toolCall s
      = (Outcome.ret (NewToolResult toolCall.ID (FormatError (env.jsonError f))), s) := by
  unfold argumentsError at hrej
  split at hrej
  · rename_i hn
    simp +decide [executeTool, hn, failure_eq_some _ _ hrej]
  split at hrej
  · rename_i hn
    simp +decide [executeTool, hn, failure_eq_some _ _ hrej]
  split at hrej
  · rename_i hn
    simp +decide [executeTool, hn, failure_eq_some _ _ hrej]
  split at hrej
  · rename_i hn
    simp +decide [executeTool, hn, failure_eq_some _ _ hrej]
  split at hrej
  · rename_i hn
    simp +decide [executeTool, hn, failure_eq_some _ _ hrej]
  split at hrej
  · rename_i hn
    simp +decide [executeTool, hn, failure_eq_some _ _ hrej]
  · cases hrej

/-- A rejected payload of `complete_task` is rejected again by the check in
`ExecuteTask`. -/
theorem complete_task_rejected (toolCall : ToolCall) (f : JSON.Failure)
    (hname : toolCall.Function.Name = utf8 "complete_task")
    (hrej : argumentsError toolCall.Function.Name toolCall.Function.Arguments = some f) :
    ParseArguments toolCall.Function.Arguments (JSON.Struct.zero : CompleteTaskArgs)
      = Except.error f := by
  rw [hname] at hrej
  simp +decide [argumentsError] at hrej
  exact failure_eq_some _ _ hrej

/-- Text that is not JSON is rejected by each of the six tools that take arguments. -/
theorem syntax_error_rejected (name payload : GoString) (hname : takesArguments name = true)
    (hbad : JSON.parse payload = none) :
    argumentsError name payload = some (JSON.Failure.syntaxError payload) := by
  unfold takesArguments at hname
  simp only [Bool.or_eq_true, decide_eq_true_eq] at hname
  unfold argumentsError
  rcases hname with ((((h | h) | h) | h) | h) | h <;> subst h <;>
    simp +decide [failure, ParseArguments, JSON.Unmarshal, hbad]

/-- C4, as amended. For each of the six tools that take arguments and every
payload that `json.Unmarshal` rejects for the tool's argument struct (among
them every payload that is not well-formed JSON), `executeTool` returns, without
calling the browser, a `ToolResult` whose content is `FormatError` of the error,
which starts with `Ошибка: `; `ExecuteTask` appends it as a `tool` turn and goes
on with the next tool call of the batch (with the next iteration when there is
none). -/
theorem rejected_arguments_yield_error_turn {σ : Type} (env : Env σ) (a : AIAgent)
    (toolCall : ToolCall) (rest : List ToolCall) (s : σ) (f : JSON.Failure)
    (hrej : argumentsError toolCall.Function.Name toolCall.Function.Arguments = some f) :
    executeTool env a toolCall s
      = (Outcome.ret (NewToolResult toolCall.ID (FormatError (env.jsonError f))), s)
    ∧ FormatError (env.jsonError f) = utf8 "Ошибка: " ++ (env.jsonError f).Error
    ∧ runToolCalls env (toolCall :: rest) a s
        = runToolCalls env rest
            { a with
              conversation :=
                a.conversation ++ [toolTurn toolCall (FormatError (env.jsonError f))] } s
    ∧ (∀ name payload : GoString, takesArguments name = true → JSON.parse payload = none →
        argumentsError name payload = some (JSON.Failure.syntaxError payload)) := by
  refine ⟨executeTool_rejected env a toolCall s f hrej, rfl, ?_, syntax_error_rejected⟩
  rw [runToolCalls, executeTool_rejected env a toolCall s f hrej]
  by_cases hname : toolCall.Function.Name = utf8 "complete_task"
  · simp [hname, complete_task_rejected toolCall f hname hrej, toolTurn, NewToolResult]
  · simp [hname, toolTurn, NewToolResult]

/-- C4, the counterexample. The catalog marks `text` as required for `fill_input`,
yet the payload `{"selector":"#q"}` parses, with `Text` empty, and the call fills
the field and reports success, not an error. And `get_page_info` with the
malformed payload `{` reports the page: the payload is not looked at. -/
theorem missing_required_field_is_accepted :
    (∃ tool ∈ GetBrowserTools,
        tool.Function.Name = utf8 "fill_input" ∧ utf8 "text" ∈ tool.Function.Required)
    ∧ ParseArguments (utf8 "\x7b\"selector\":\"#q\"\x7d") (JSON.Struct.zero : FillInputArgs)
        = Except.ok { Selector := utf8 "#q", Text := [] }
    ∧ executeTool (Fixture.env (fun _ => Fixture.assistant [] []) none) (Fixture.agent 20)
        (Fixture.call "call_1" "fill_input" "\x7b\"selector\":\"#q\"\x7d") 0
      = (Outcome.ret (NewToolResult (utf8 "call_1") (utf8 "Успешно заполнил поле #q текстом: ")),
          0)
    ∧ HasPrefix (utf8 "Успешно заполнил поле #q текстом: ") (utf8 "Ошибка:") = false
    ∧ (JSON.parse (utf8 "\x7b")).isNone = true
    ∧ executeTool (Fixture.env (fun _ => Fixture.assistant [] []) none) (Fixture.agent 20)
        (Fixture.call "call_2" "get_page_info" "\x7b") 0
      = (Outcome.ret (NewToolResult (utf8 "call_2") (utf8 "URL: about:blank\nЗаголовок: ")), 0) := by
  decide


/-- The witness of `rejected_arguments_yield_error_turn`: `fill_input` with a
payload that lacks its closing brace. -/
theorem rejected_arguments_yield_error_turn_witness :
    argumentsError (utf8 "fill_input") (utf8 "\x7b\"selector\":\"#q\"")
        = some (JSON.Failure.syntaxError (utf8 "\x7b\"selector\":\"#q\""))
    ∧ executeTool (Fixture.env (fun _ => Fixture.assistant [] []) none) (Fixture.agent 20)
        (Fixture.call "call_1" "fill_input" "\x7b\"selector\":\"#q\"") 0
      = (Outcome.ret (NewToolResult (utf8 "call_1") (utf8 "Ошибка: unexpected end of JSON input")),
          0) :=
  ⟨by decide,
    (rejected_arguments_yield_error_turn
      (Fixture.env (fun _ => Fixture.assistant [] []) none) (Fixture.agent 20)
      (Fixture.call "call_1" "fill_input" "\x7b\"selector\":\"#q\"") [] 0
      (JSON.Failure.syntaxError (utf8 "\x7b\"selector\":\"#q\"")) (by decide)).1.trans
      (by decide)⟩

/-- What `executeTool` returns, when it returns, answers the request: the
result carries the request's id and the role `tool`. -/
theorem executeTool_ret_id {σ : Type} (env : Env σ) (a : AIAgent) (toolCall : ToolCall) (s : σ)
    (result : ToolResult) (h : (executeTool env a toolCall s).1 = Outcome.ret result) :
    result.ToolCallID = toolCall.ID ∧ result.Role = utf8 "tool" := by
  unfold executeTool at h
  repeat' split at h
  all_goals first
    | (cases h; exact ⟨rfl, rfl⟩)
    | (simp only [reduceCtorEq] at h)

/-! ### Navigation and history -/

/-- The navigation calls of two logs, one after the other. -/
theorem navigatedURLs_append (l1 l2 : List Event) :
    navigatedURLs (l1 ++ l2) = navigatedURLs l1 ++ navigatedURLs l2 := by
  induction l1 with
  | nil => rfl
  | cons e rest ih => cases e <;> simp [navigatedURLs, ih]

/-- The one navigation call of `Navigate` carries the normalised URL. -/
theorem Navigate_log {σ : Type} (env : Env σ) (bm : BrowserManager) (url : GoString) (s : σ)
    (log : List Event) :
    navigatedURLs (bm.Navigate (recording env) url (s, log)).2.2
      = navigatedURLs log ++
          [if !HasPrefix url (utf8 "http://") && !HasPrefix url (utf8 "https://") then
            utf8 "https://" ++ url else url] := by
  unfold BrowserManager.Navigate
  simp only [recording]
  generalize (if (!HasPrefix url (utf8 "http://") && !HasPrefix url (utf8 "https://")) = true then
            utf8 "https://" ++ url else url) = d
  rcases h1 : (env.pageNavigate bm.page (30 * Second) d s).1 with _ | e1
  · rcases h2 : (env.pageWaitLoad bm.page (env.pageNavigate bm.page (30 * Second) d s).2).1
      with _ | e2
    · simp [h1, h2, navigatedURLs_append, navigatedURLs]
    · simp [h1, h2, navigatedURLs_append, navigatedURLs]
  · simp [h1, navigatedURLs_append, navigatedURLs]

/-- A string starts with what it was built from. -/
theorem HasPrefix_append (p s : GoString) : HasPrefix (p ++ s) p = true := by
  simp [HasPrefix]

/-- C7. For every string `url`, the one URL `Navigate` hands to the page driver
is `url` itself when `url` starts with `http://` or `https://`, and
`"https://" ++ url` otherwise; `example.com` is dispatched as
`https://example.com` and `http://x` unchanged; the dispatched URL starts with
one of the two prefixes, and navigating to the dispatched URL dispatches it
unchanged (normalising twice equals normalising once). -/
theorem Navigate_dispatched_url {σ : Type} (env : Env σ) (bm : BrowserManager) (url : GoString)
    (s : σ) :
    (HasPrefix url (utf8 "http://") = true ∨ HasPrefix url (utf8 "https://") = true →
      navigatedURLs (bm.Navigate (recording env) url (s, [])).2.2 = [url])
    ∧ (¬ (HasPrefix url (utf8 "http://") = true ∨ HasPrefix url (utf8 "https://") = true) →
      navigatedURLs (bm.Navigate (recording env) url (s, [])).2.2 = [utf8 "https://" ++ url])
    ∧ navigatedURLs (bm.Navigate (recording env) (utf8 "example.com") (s, [])).2.2
        = [utf8 "https://example.com"]
    ∧ navigatedURLs (bm.Navigate (recording env) (utf8 "http://x") (s, [])).2.2
        = [utf8 "http://x"]
    ∧ (∀ d ∈ navigatedURLs (bm.Navigate (recording env) url (s, [])).2.2,
        (HasPrefix d (utf8 "http://") = true ∨ HasPrefix d (utf8 "https://") = true)
        ∧ ∀ s2 : σ, navigatedURLs (bm.Navigate (recording env) d (s2, [])).2.2 = [d]) := by
  refine ⟨?_, ?_, ?_, ?_, ?_⟩
  · intro h
    rw [Navigate_log]
    rcases h with h | h <;> simp [navigatedURLs, h]
  · intro h
    rw [Navigate_log]
    have h1 : HasPrefix url (utf8 "http://") = false := by
      cases hh : HasPrefix url (utf8 "http://") <;> simp_all
    have h2 : HasPrefix url (utf8 "https://") = false := by
      cases hh : HasPrefix url (utf8 "https://") <;> simp_all
    simp [navigatedURLs, h1, h2]
  · rw [Navigate_log]; decide
  · rw [Navigate_log]; decide
  · intro d hd
    rw [Navigate_log] at hd
    simp only [navigatedURLs, List.nil_append, List.mem_singleton] at hd
    have hp : HasPrefix d (utf8 "http://") = true ∨ HasPrefix d (utf8 "https://") = true := by
      subst hd
      by_cases h1 : HasPrefix url (utf8 "http://") = true
      · simp [h1]
      · by_cases h2 : HasPrefix url (utf8 "https://") = true
        · simp [h2]
        · right
          simp [h1, h2, HasPrefix_append]
    refine ⟨hp, fun s2 => ?_⟩
    rw [Navigate_log]
    rcases hp with h | h <;> simp [navigatedURLs, h]

/-- C9. `ClearHistory` resets the transcript, whatever it was, to the single
`system` turn that `NewAIAgent` establishes; it leaves the browser manager, the
client and `maxIterations` as they are (it is a function of the agent alone and
does not touch the world); and it is idempotent. -/
theorem ClearHistory_resets (a : AIAgent) :
    (ClearHistory a).conversation
        = [{ Role := ChatMessageRoleSystem, Content := [], ToolCalls := [], ToolCallID := [] }]
    ∧ (∀ (apiKey : GoString) (client : Nat) (bm : BrowserManager) (fresh : AIAgent),
        NewAIAgent apiKey client bm = Except.ok fresh →
          (ClearHistory a).conversation = fresh.conversation)
    ∧ (ClearHistory a).browser = a.browser
    ∧ (ClearHistory a).client = a.client
    ∧ (ClearHistory a).maxIterations = a.maxIterations
    ∧ ClearHistory (ClearHistory a) = ClearHistory a := by
  refine ⟨rfl, ?_, rfl, rfl, rfl, rfl⟩
  intro apiKey client bm fresh h
  unfold NewAIAgent at h
  split at h
  · cases h
  · cases h; rfl

/-! ### The summary of `get_elements` -/

/-- What the loop of `get_elements` writes from position `i` on: the lines of the
elements up to position 10, then the remainder line if elements are left. -/
theorem writeElements_eq (total : Nat) (elems : List ElementInfo) :
    ∀ i : Nat, i ≤ 10 →
      writeElements total i elems
        = (numberedFrom i (elems.take (10 - i))).flatMap (fun p => elemInfo p.1 p.2 ++ utf8 "\n")
          ++ (if elems.length > 10 - i then
                utf8 "... и еще " ++ fmtInt ((total : Int) - 10) ++ utf8 " элементов\n"
              else []) := by
  induction elems with
  | nil => intro i _; simp [writeElements, numberedFrom]
  | cons e rest ih =>
    intro i hi
    by_cases h10 : i ≥ 10
    · have : i = 10 := by omega
      subst this
      simp [writeElements, numberedFrom]
    · have hsub : 10 - i = (10 - (i + 1)) + 1 := by omega
      rw [writeElements, if_neg h10, ih (i + 1) (by omega), hsub, List.take_succ_cons,
        numberedFrom]
      simp only [List.flatMap_cons, List.append_assoc, List.length_cons]
      congr 2
      by_cases hl : rest.length > 10 - (i + 1)
      · rw [if_pos hl, if_pos (by omega)]
      · rw [if_neg hl, if_neg (by omega)]

/-- The positions of `numberedFrom`. -/
theorem numberedFrom_fst {α : Type} (xs : List α) :
    ∀ i : Nat, (numberedFrom i xs).map (fun p => p.1) = List.range' i xs.length := by
  induction xs with
  | nil => intro i; rfl
  | cons x rest ih => intro i; simp [numberedFrom, ih, List.range'_succ]

/-- The items of `numberedFrom`. -/
theorem numberedFrom_snd {α : Type} (xs : List α) :
    ∀ i : Nat, (numberedFrom i xs).map (fun p => p.2) = xs := by
  induction xs with
  | nil => intro i; rfl
  | cons x rest ih => intro i; simp [numberedFrom, ih]

/-- C10. For a non-empty list of `n` elements that the browser layer returns for
a `get_elements` call, the result's content is the header line stating `n`,
then one line for each of the first `min n 10` elements, in the order returned
and numbered from 1 (the line of position `k` starts with `k+1`), and then, when
`n > 10`, one line stating the remainder `n - 10`; when `n ≤ 10` nothing
follows the element lines. -/
theorem get_elements_summary {σ : Type} (env : Env σ) (a : AIAgent) (toolCall : ToolCall) (s : σ)
    (args : GetElementsArgs) (elements : List ElementInfo) (s1 : σ)
    (hname : toolCall.Function.Name = utf8 "get_elements")
    (hargs : ParseArguments toolCall.Function.Arguments (JSON.Struct.zero : GetElementsArgs)
      = Except.ok args)
    (hget : a.browser.GetElements env args.Selector s = (Except.ok elements, s1))
    (hne : elements ≠ []) :
    executeTool env a toolCall s
      = (Outcome.ret (NewToolResult toolCall.ID
          (utf8 "Найдено элементов: " ++ fmtInt (elements.length : Int) ++ utf8 "\n"
            ++ (numberedFrom 0 (elements.take 10)).flatMap
                (fun p => elemInfo p.1 p.2 ++ utf8 "\n")
            ++ (if elements.length > 10 then
                  utf8 "... и еще " ++ fmtInt ((elements.length : Int) - 10) ++ utf8 " элементов\n"
                else []))), s1)
    ∧ (elements.take 10).length = min elements.length 10
    ∧ (numberedFrom 0 (elements.take 10)).map (fun p => p.1)
        = List.range (min elements.length 10)
    ∧ (numberedFrom 0 (elements.take 10)).map (fun p => p.2) = elements.take 10
    ∧ ∀ (k : Nat) (e : ElementInfo),
        (fmtInt ((k : Int) + 1) ++ utf8 ". Селектор: " ++ e.Selector) <+: elemInfo k e := by
  have hlen : elements.length ≠ 0 := by
    intro h; exact hne (List.length_eq_zero.mp h)
  refine ⟨?_, ?_, ?_, ?_, ?_⟩
  · simp +decide [executeTool, hname, hargs, hget, hlen, elementsSummary, writeElements_eq]
  · simp [List.length_take, Nat.min_comm]
  · rw [numberedFrom_fst, List.range_eq_range']
    simp [List.length_take, Nat.min_comm]
  · exact numberedFrom_snd _ 0
  · intro k e
    unfold elemInfo
    cases e.Href <;> cases e.ID <;> simp [List.append_assoc]


/-- The witness of `get_elements_summary`: eleven matches of `li`; ten are
listed and the remainder line states one. -/
theorem get_elements_summary_witness :
    (Fixture.agent 20).browser.GetElements (Fixture.page (List.replicate 11 Fixture.element))
        (utf8 "li") 0
      = (Except.ok (BrowserManager.collect (Fixture.page (List.replicate 11 Fixture.element))
          (utf8 "li") 0 (List.replicate 11 Fixture.element)), 0)
    ∧ (executeTool (Fixture.page (List.replicate 11 Fixture.element)) (Fixture.agent 20)
        (Fixture.call "call_1" "get_elements" "\x7b\"selector\":\"li\"\x7d") 0).1
      = Outcome.ret (NewToolResult (utf8 "call_1")
          (utf8 ("Найдено элементов: 11\n"
            ++ "1. Селектор: li:nth-child(1), Тег: , Текст: \n"
            ++ "2. Селектор: li:nth-child(2), Тег: , Текст: \n"
            ++ "3. Селектор: li:nth-child(3), Тег: , Текст: \n"
            ++ "4. Селектор: li:nth-child(4), Тег: , Текст: \n"
            ++ "5. Селектор: li:nth-child(5), Тег: , Текст: \n"
            ++ "6. Селектор: li:nth-child(6), Тег: , Текст: \n"
            ++ "7. Селектор: li:nth-child(7), Тег: , Текст: \n"
            ++ "8. Селектор: li:nth-child(8), Тег: , Текст: \n"
            ++ "9. Селектор: li:nth-child(9), Тег: , Текст: \n"
            ++ "10. Селектор: li:nth-child(10), Тег: , Текст: \n"
            ++ "... и еще 1 элементов\n"))) := by
  refine ⟨rfl, ?_⟩
  rw [(get_elements_summary (Fixture.page (List.replicate 11 Fixture.element)) (Fixture.agent 20)
    (Fixture.call "call_1" "get_elements" "\x7b\"selector\":\"li\"\x7d") 0
    { Selector := utf8 "li" }
    (BrowserManager.collect (Fixture.page (List.replicate 11 Fixture.element))
      (utf8 "li") 0 (List.replicate 11 Fixture.element)) 0
    (by decide) (by decide) rfl (by decide)).1]
  decide

/-! ### Selector synthesis -/

section Selectors

open BrowserManager

/-- The loop of `GetElements` reports one `ElementInfo` per element. -/
theorem collect_length {σ : Type} (env : Env σ) (selector : GoString) (elems : List RodElement) :
    ∀ i : Nat, (collect env selector i elems).length = elems.length := by
  induction elems with
  | nil => intro i; rfl
  | cons e rest ih => intro i; simp [collect, ih]

/-- The `ElementInfo` at a position is that of the element at that position. -/
theorem collect_getElem? {σ : Type} (env : Env σ) (selector : GoString)
    (elems : List RodElement) :
    ∀ (i k : Nat) (e : RodElement), elems[k]? = some e →
      (collect env selector i elems)[k]? = some (elementInfo env selector (i + k) e) := by
  induction elems with
  | nil => intro i k e h; simp at h
  | cons x rest ih =>
    intro i k e h
    cases k with
    | zero =>
      simp at h
      subst h
      simp [collect]
    | succ k =>
      simp at h
      have := ih (i + 1) k e h
      simp [collect, this]
      congr 1
      omega

/-- C8, as amended. `generateSelector` returns `#id` if the element has a
non-empty `id` attribute; otherwise `[data-id='v']` if it has a non-empty
`data-id` attribute `v`; otherwise `s:nth-child(i+1)` for the query selector `s`
and the position `i` (an attribute whose read reports an error or whose value is
empty counts as absent). `GetElements` returns one `ElementInfo` per match, in
query order, the one at position `k` with this selector and `Index = k`. -/
theorem generateSelector_policy {σ : Type} (env : Env σ) (bm : BrowserManager)
    (elem : RodElement) (selector : GoString) (i : Nat) (s : σ) :
    (∀ id : GoString, elem.Attribute (utf8 "id") = Except.ok (some id) → id ≠ [] →
      generateSelector elem selector (i : Int) = utf8 "#" ++ id)
    ∧ (∀ v : GoString,
        ¬ (∃ id : GoString, elem.Attribute (utf8 "id") = Except.ok (some id) ∧ id ≠ []) →
        elem.Attribute (utf8 "data-id") = Except.ok (some v) → v ≠ [] →
        generateSelector elem selector (i : Int) = utf8 "[data-id=\x27" ++ v ++ utf8 "\x27]")
    ∧ (¬ (∃ id : GoString, elem.Attribute (utf8 "id") = Except.ok (some id) ∧ id ≠ []) →
        ¬ (∃ v : GoString, elem.Attribute (utf8 "data-id") = Except.ok (some v) ∧ v ≠ []) →
        generateSelector elem selector (i : Int)
          = selector ++ utf8 ":nth-child(" ++ fmtInt ((i : Int) + 1) ++ utf8 ")")
    ∧ (∀ (elements : List RodElement) (s1 : σ),
        env.pageElements bm.page (10 * Second) selector s = (Except.ok elements, s1) →
        ∃ infos : List ElementInfo,
          bm.GetElements env selector s = (Except.ok infos, s1)
          ∧ infos.length = elements.length
          ∧ ∀ (k : Nat) (e : RodElement), elements[k]? = some e →
              ∃ info : ElementInfo, infos[k]? = some info
                ∧ info.Selector = generateSelector e selector (k : Int)
                ∧ info.Index = (k : Int)) := by
  have hnone : ∀ name : GoString,
      ¬ (∃ v : GoString, elem.Attribute name = Except.ok (some v) ∧ v ≠ []) →
        nonEmptyAttribute (elem.Attribute name) = none := by
    intro name h
    unfold nonEmptyAttribute
    split
    · rename_i v hv
      split
      · rename_i hne
        exact absurd ⟨v, hv, hne⟩ h
      · rfl
    · rfl
  refine ⟨?_, ?_, ?_, ?_⟩
  · intro id h hne
    simp [generateSelector, nonEmptyAttribute, h, hne]
  · intro v hid h hne
    rw [generateSelector, hnone _ hid]
    simp [nonEmptyAttribute, h, hne]
  · intro hid hdata
    rw [generateSelector, hnone _ hid, hnone _ hdata]
  · intro elements s1 h
    refine ⟨collect env selector 0 elements, ?_, collect_length env selector elements 0, ?_⟩
    · simp [GetElements, h]
    · intro k e hk
      refine ⟨elementInfo env selector k e, ?_, rfl, rfl⟩
      have := collect_getElem? env selector elements 0 k e hk
      simpa using this

/-- C8, the counterexample. An element without `id` whose `data-id` attribute is
present with the empty value: the claim gives `[data-id='']`, the code gives the
positional selector. -/
theorem generateSelector_empty_data_id :
    Fixture.emptyDataID.Attribute (utf8 "data-id") = Except.ok (some [])
    ∧ generateSelector Fixture.emptyDataID (utf8 "li") 0 = utf8 "li:nth-child(1)"
    ∧ generateSelector Fixture.emptyDataID (utf8 "li") 0 ≠ utf8 "[data-id=\x27\x27]" := by
  decide
end Selectors

/-! ### The calls of a run, and the transcript invariant -/

/-- The LLM calls of two logs, one after the other. -/
theorem llmCalls_append (l1 l2 : List Event) : llmCalls (l1 ++ l2) = llmCalls l1 + llmCalls l2 := by
  simp [llmCalls, List.countP_append]

/-- A log continues itself. -/
theorem BrowserOnly.refl (log : List Event) : BrowserOnly log log := ⟨[], by simp, by simp⟩

/-- Continuations compose. -/
theorem BrowserOnly.trans {l1 l2 l3 : List Event} (h12 : BrowserOnly l1 l2)
    (h23 : BrowserOnly l2 l3) : BrowserOnly l1 l3 := by
  obtain ⟨e1, rfl, h1⟩ := h12
  obtain ⟨e2, rfl, h2⟩ := h23
  refine ⟨e1 ++ e2, by simp, ?_⟩
  intro e he
  rcases List.mem_append.mp he with h | h
  · exact h1 e h
  · exact h2 e h

/-- One browser call continues a log. -/
theorem BrowserOnly.one (log : List Event) (e : Event) (h : e.isLLM = false) :
    BrowserOnly log (log ++ [e]) := ⟨[e], rfl, by simpa using h⟩

/-- Two browser calls continue a log. -/
theorem BrowserOnly.two (log : List Event) (e1 e2 : Event) (h1 : e1.isLLM = false)
    (h2 : e2.isLLM = false) : BrowserOnly log (log ++ [e1] ++ [e2]) :=
  (BrowserOnly.one log e1 h1).trans (BrowserOnly.one _ e2 h2)

/-- Browser calls leave the number of LLM calls as it is. -/
theorem llmCalls_of_browserOnly {log log1 : List Event} (h : BrowserOnly log log1) :
    llmCalls log1 = llmCalls log := by
  obtain ⟨evs, rfl, hev⟩ := h
  have : llmCalls evs = 0 := by
    unfold llmCalls
    rw [List.countP_eq_zero]
    intro e he
    simp [hev e he]
  rw [llmCalls_append, this, Nat.add_zero]

section Quiet
variable {σ : Type} (env : Env σ) (bm : BrowserManager)

/-- The function `Navigate` calls only the browser. -/
theorem Navigate_browserOnly (url : GoString) (w : σ × List Event) :
    BrowserOnly w.2 (bm.Navigate (recording env) url w).2.2 := by
  unfold BrowserManager.Navigate
  simp only [recording]
  generalize (if (!HasPrefix url (utf8 "http://") && !HasPrefix url (utf8 "https://")) = true then
            utf8 "https://" ++ url else url) = d
  rcases h1 : (env.pageNavigate bm.page (30 * Second) d w.1).1 with _ | e1
  · rcases h2 : (env.pageWaitLoad bm.page (env.pageNavigate bm.page (30 * Second) d w.1).2).1
      with _ | e2 <;>
    · simp only [h1, h2]
      exact BrowserOnly.two _ _ _ rfl rfl
  · simp only [h1]
    exact BrowserOnly.one _ _ rfl

/-- The function `GetPageContent` calls only the browser. -/
theorem GetPageContent_browserOnly (w : σ × List Event) :
    BrowserOnly w.2 (bm.GetPageContent (recording env) w).2.2 := by
  unfold BrowserManager.GetPageContent
  simp only [recording]
  rcases h1 : (env.pageHTML bm.page w.1).1 with e1 | v <;>
  · simp only [h1]
    exact BrowserOnly.one _ _ rfl

/-- The function `GetPageText` calls only the browser. -/
theorem GetPageText_browserOnly (w : σ × List Event) :
    BrowserOnly w.2 (bm.GetPageText (recording env) w).2.2 := by
  unfold BrowserManager.GetPageText
  simp only [recording, must]
  rcases h1 : (env.pageElement bm.page none (utf8 "body") w.1).1 with e1 | v
  · exact BrowserOnly.one _ _ rfl
  · simp only []
    rcases h2 : v.Text with e2 | t <;> exact BrowserOnly.one _ _ rfl

/-- The function `GetPageURL` calls only the browser. -/
theorem GetPageURL_browserOnly (w : σ × List Event) :
    BrowserOnly w.2 (bm.GetPageURL (recording env) w).2.2 := by
  unfold BrowserManager.GetPageURL
  simp only [recording, must]
  rcases h1 : (env.pageInfo bm.page w.1).1 with e1 | v <;> exact BrowserOnly.one _ _ rfl

/-- The function `GetPageTitle` calls only the browser. -/
theorem GetPageTitle_browserOnly (w : σ × List Event) :
    BrowserOnly w.2 (bm.GetPageTitle (recording env) w).2.2 := by
  unfold BrowserManager.GetPageTitle
  simp only [recording, must]
  rcases h1 : (env.pageInfo bm.page w.1).1 with e1 | v <;> exact BrowserOnly.one _ _ rfl

/-- The function `ClickElement` calls only the browser. -/
theorem ClickElement_browserOnly (selector : GoString) (w : σ × List Event) :
    BrowserOnly w.2 (bm.ClickElement (recording env) selector w).2.2 := by
  unfold BrowserManager.ClickElement
  simp only [recording, mustNil]
  rcases h1 : (env.pageElement bm.page (some (10 * Second)) selector w.1).1 with e1 | v
  · exact BrowserOnly.one _ _ rfl
  · simp only []
    rcases h2 : (env.elementClick v
        (env.pageElement bm.page (some (10 * Second)) selector w.1).2).1 with _ | e2 <;>
    · simp only []
      exact BrowserOnly.two _ _ _ rfl rfl

/-- The function `FillInput` calls only the browser. -/
theorem FillInput_browserOnly (selector text : GoString) (w : σ × List Event) :
    BrowserOnly w.2 (bm.FillInput (recording env) selector text w).2.2 := by
  unfold BrowserManager.FillInput
  simp only [recording]
  rcases h1 : (env.pageElement bm.page (some (10 * Second)) selector w.1).1 with e1 | v
  · exact BrowserOnly.one _ _ rfl
  · simp only []
    rcases h2 : (env.elementInput v text
        (env.pageElement bm.page (some (10 * Second)) selector w.1).2).1 with _ | e2 <;>
    · simp only []
      exact BrowserOnly.two _ _ _ rfl rfl

/-- The function `GetElements` calls only the browser. -/
theorem GetElements_browserOnly (selector : GoString) (w : σ × List Event) :
    BrowserOnly w.2 (bm.GetElements (recording env) selector w).2.2 := by
  unfold BrowserManager.GetElements
  simp only [recording]
  rcases h1 : (env.pageElements bm.page (10 * Second) selector w.1).1 with e1 | v <;>
    exact BrowserOnly.one _ _ rfl

/-- The function `WaitForElement` calls only the browser. -/
theorem WaitForElement_browserOnly (selector : GoString) (timeout : Duration)
    (w : σ × List Event) :
    BrowserOnly w.2 (bm.WaitForElement (recording env) selector timeout w).2.2 := by
  unfold BrowserManager.WaitForElement
  simp only [recording]
  rcases h1 : (env.pageElement bm.page (some timeout) selector w.1).1 with e1 | v <;>
    exact BrowserOnly.one _ _ rfl

end Quiet

/-- Tool dispatch calls only the browser, never the LLM. -/
theorem executeTool_browserOnly {σ : Type} (env : Env σ) (a : AIAgent) (toolCall : ToolCall)
    (w : σ × List Event) :
    BrowserOnly w.2 (executeTool (recording env) a toolCall w).2.2 := by
  unfold executeTool
  split
  · split
    · exact BrowserOnly.refl _
    · rename_i args _
      have h := Navigate_browserOnly env a.browser args.URL w
      rcases hN : a.browser.Navigate (recording env) args.URL w with ⟨r, w1⟩
      rw [hN] at h
      cases r <;> exact h
  split
  · have h := GetPageContent_browserOnly env a.browser w
    rcases hN : a.browser.GetPageContent (recording env) w with ⟨r, w1⟩
    rw [hN] at h
    cases r with
    | error e => exact h
    | ok html =>
      have h2 := GetPageText_browserOnly env a.browser w1
      simp only []
      rcases hT : a.browser.GetPageText (recording env) w1 with ⟨r2, w2⟩
      rw [hT] at h2
      rcases r2 with (_ | _) | _ <;> exact h.trans h2
  split
  · have h := GetPageURL_browserOnly env a.browser w
    rcases hN : a.browser.GetPageURL (recording env) w with ⟨r, w1⟩
    rw [hN] at h
    cases r with
    | panic v => exact h
    | ret url =>
      have h2 := GetPageTitle_browserOnly env a.browser w1
      simp only []
      rcases hT : a.browser.GetPageTitle (recording env) w1 with ⟨r2, w2⟩
      rw [hT] at h2
      cases r2 <;> exact h.trans h2
  split
  · split
    · exact BrowserOnly.refl _
    · rename_i args _
      have h := ClickElement_browserOnly env a.browser args.Selector w
      rcases hN : a.browser.ClickElement (recording env) args.Selector w with ⟨r, w1⟩
      rw [hN] at h
      rcases r with (_ | _) | _ <;> exact h
  split
  · split
    · exact BrowserOnly.refl _
    · rename_i args _
      have h := FillInput_browserOnly env a.browser args.Selector args.Text w
      rcases hN : a.browser.FillInput (recording env) args.Selector args.Text w with ⟨r, w1⟩
      rw [hN] at h
      cases r <;> exact h
  split
  · split
    · exact BrowserOnly.refl _
    · rename_i args _
      have h := GetElements_browserOnly env a.browser args.Selector w
      rcases hN : a.browser.GetElements (recording env) args.Selector w with ⟨r, w1⟩
      rw [hN] at h
      cases r with
      | error e => exact h
      | ok elements =>
        simp only []
        split <;> exact h
  split
  · split
    · exact BrowserOnly.refl _
    · rename_i args _
      have h := WaitForElement_browserOnly env a.browser args.Selector (waitTimeout args) w
      rcases hN : a.browser.WaitForElement (recording env) args.Selector (waitTimeout args) w
        with ⟨r, w1⟩
      rw [hN] at h
      cases r <;> exact h
  split
  · split <;> exact BrowserOnly.refl _
  · exact BrowserOnly.refl _

/-- A batch of tool calls calls only the browser. -/
theorem runToolCalls_browserOnly {σ : Type} (env : Env σ) (calls : List ToolCall) :
    ∀ (a : AIAgent) (w : σ × List Event),
      BrowserOnly w.2 (runToolCalls (recording env) calls a w).2.2.2 := by
  induction calls with
  | nil => intro a w; exact BrowserOnly.refl _
  | cons toolCall rest ih =>
    intro a w
    have h := executeTool_browserOnly env a toolCall w
    rw [runToolCalls]
    rcases hE : executeTool (recording env) a toolCall w with ⟨r, w1⟩
    rw [hE] at h
    cases r with
    | panic v => exact h
    | ret result =>
      simp only []
      split
      · split
        · exact h
        · exact h.trans (ih _ _)
      · exact h.trans (ih _ _)

/-- The recorded LLM call: the call itself, and its entry in the log. -/
theorem recording_CreateChatCompletion {σ : Type} (env : Env σ) (client : Nat)
    (req : ChatCompletionRequest) (w : σ × List Event) :
    (recording env).CreateChatCompletion client req w
      = ((env.CreateChatCompletion client req w.1).1,
          ((env.CreateChatCompletion client req w.1).2,
            w.2 ++ [Event.createChatCompletion client req])) := rfl

/-- The loop makes at most as many LLM calls as it has iterations to go. -/
theorem iterate_llmCalls_le {σ : Type} (env : Env σ) (tools : List Tool) :
    ∀ (remaining : Nat) (a : AIAgent) (w : σ × List Event),
      llmCalls (iterate (recording env) tools remaining a w).2.2.2 ≤ llmCalls w.2 + remaining := by
  intro remaining
  induction remaining with
  | zero => intro a w; simp [iterate]
  | succ n ih =>
    intro a w
    rw [iterate]
    simp only [recording_CreateChatCompletion]
    rcases hC : (env.CreateChatCompletion a.client
      { Model := GPT4TurboPreview, Messages := a.conversation, Tools := tools } w.1).1
      with err | resp
    · simp [llmCalls_append, llmCalls, Event.isLLM]
    · simp only []
      rcases hCh : resp.Choices with _ | ⟨choice, others⟩
      · simp [llmCalls_append, llmCalls, Event.isLLM]
      · simp only []
        have step : llmCalls (w.2 ++ [Event.createChatCompletion a.client
            { Model := GPT4TurboPreview, Messages := a.conversation, Tools := tools }])
              = llmCalls w.2 + 1 := by
          simp [llmCalls_append, llmCalls, Event.isLLM]
        split
        · split
          · simp only [step]; omega
          · refine (ih _ _).trans ?_
            simp only [step]; omega
        · have hb := runToolCalls_browserOnly env choice.Message.ToolCalls
            { a with conversation := a.conversation ++ [choice.Message] }
            ((env.CreateChatCompletion a.client
              { Model := GPT4TurboPreview, Messages := a.conversation, Tools := tools } w.1).2,
              w.2 ++ [Event.createChatCompletion a.client
                { Model := GPT4TurboPreview, Messages := a.conversation, Tools := tools }])
          have hl := llmCalls_of_browserOnly hb
          simp only [step] at hl
          split
          · rename_i heq; rw [heq] at hl; simp only [] at hl ⊢; omega
          · rename_i heq; rw [heq] at hl; simp only [] at hl ⊢; omega
          · rename_i heq; rw [heq] at hl; simp only [] at hl
            refine (ih _ _).trans ?_
            omega

/-- Whatever the LLM and the browser do, one run of `ExecuteTask` makes at most
`maxIterations` LLM calls. -/
theorem ExecuteTask_llmCalls_le {σ : Type} (env : Env σ) (a : AIAgent) (task : GoString)
    (s : σ) :
    llmCalls (ExecuteTask (recording env) a task (s, [])).2.2.2 ≤ a.maxIterations.toNat := by
  have h := iterate_llmCalls_le env (convertToolsToOpenAI GetBrowserTools) a.maxIterations.toNat
    { a with conversation := a.conversation ++
        [{ Role := ChatMessageRoleUser, Content := task, ToolCalls := [], ToolCallID := [] }] }
    (s, [])
  simpa [ExecuteTask, llmCalls] using h


/-- The scan of two transcripts, one after the other. -/
theorem scanOK_append (xs ys : List ChatCompletionMessage) :
    ∀ pending : List GoString,
      scanOK pending (xs ++ ys) ↔ scanOK pending xs ∧ scanOK (pendingAfter pending xs) ys := by
  induction xs with
  | nil => intro p; simp [scanOK, pendingAfter]
  | cons m rest ih =>
    intro p
    simp only [List.cons_append, scanOK, pendingAfter, List.append_eq]
    split
    · cases p with
      | nil => simp
      | cons id ids => simp only [ih]; tauto
    · split
      · exact ih _
      · exact ih _

/-- The pending ids after two transcripts, one after the other. -/
theorem pendingAfter_append (xs ys : List ChatCompletionMessage) :
    ∀ pending : List GoString,
      pendingAfter pending (xs ++ ys) = pendingAfter (pendingAfter pending xs) ys := by
  induction xs with
  | nil => intro p; rfl
  | cons m rest ih =>
    intro p
    simp only [List.cons_append, pendingAfter, List.append_eq]
    split
    · cases p <;> exact ih _
    · split <;> exact ih _

/-- The four role names differ. -/
theorem role_tool_ne_assistant : ChatMessageRoleTool ≠ ChatMessageRoleAssistant := by decide
theorem role_user_ne_tool : ChatMessageRoleUser ≠ ChatMessageRoleTool := by decide
theorem role_user_ne_assistant : ChatMessageRoleUser ≠ ChatMessageRoleAssistant := by decide
theorem role_system_ne_tool : ChatMessageRoleSystem ≠ ChatMessageRoleTool := by decide
theorem role_system_ne_assistant : ChatMessageRoleSystem ≠ ChatMessageRoleAssistant := by decide
theorem role_assistant_ne_tool : ChatMessageRoleAssistant ≠ ChatMessageRoleTool := by decide

/-- The tool loop keeps the invariant: each `tool` turn it appends answers the next
pending id. -/
theorem runToolCalls_scanOK {σ : Type} (env : Env σ) (calls : List ToolCall) :
    ∀ (a : AIAgent) (s : σ), scanOK [] a.conversation →
      pendingAfter [] a.conversation = calls.map (fun c => c.ID) →
      scanOK [] (runToolCalls env calls a s).2.1.conversation := by
  induction calls with
  | nil => intro a s h _; simpa [runToolCalls] using h
  | cons toolCall rest ih =>
    intro a s hok hpend
    rw [runToolCalls]
    rcases hE : executeTool env a toolCall s with ⟨r, s1⟩
    cases r with
    | panic v => simpa using hok
    | ret result =>
      simp only []
      have hok1 : scanOK [] (a.conversation ++
          [{ Role := ChatMessageRoleTool, Content := result.Content, ToolCalls := [],
             ToolCallID := toolCall.ID }]) := by
        rw [scanOK_append, hpend]
        exact ⟨hok, by simp [scanOK]⟩
      have hpend1 : pendingAfter [] (a.conversation ++
          [{ Role := ChatMessageRoleTool, Content := result.Content, ToolCalls := [],
             ToolCallID := toolCall.ID }]) = rest.map (fun c => c.ID) := by
        rw [pendingAfter_append, hpend]
        simp [pendingAfter]
      split
      · split
        · exact hok1
        · exact ih _ _ hok1 hpend1
      · exact ih _ _ hok1 hpend1

/-- The agent loop keeps the invariant when the LLM's replies are assistant turns. -/
theorem iterate_scanOK {σ : Type} (env : Env σ) (tools : List Tool)
    (hrole : ∀ (client : Nat) (req : ChatCompletionRequest) (s s1 : σ)
      (resp : ChatCompletionResponse) (choice : ChatCompletionChoice)
      (others : List ChatCompletionChoice),
      env.CreateChatCompletion client req s = (Except.ok resp, s1) →
      resp.Choices = choice :: others → choice.Message.Role = ChatMessageRoleAssistant) :
    ∀ (remaining : Nat) (a : AIAgent) (s : σ), scanOK [] a.conversation →
      scanOK [] (iterate env tools remaining a s).2.1.conversation := by
  intro remaining
  induction remaining with
  | zero => intro a s h; simpa [iterate] using h
  | succ n ih =>
    intro a s hok
    rw [iterate]
    rcases hC : env.CreateChatCompletion a.client
      { Model := GPT4TurboPreview, Messages := a.conversation, Tools := tools } s with ⟨r, s1⟩
    cases r with
    | error err => simpa using hok
    | ok resp =>
      simp only []
      rcases hCh : resp.Choices with _ | ⟨choice, others⟩
      · simpa using hok
      · simp only []
        have hr := hrole _ _ _ _ _ _ _ hC hCh
        have hok1 : scanOK [] (a.conversation ++ [choice.Message]) := by
          rw [scanOK_append]
          refine ⟨hok, ?_⟩
          simp [scanOK, hr, role_assistant_ne_tool]
        have hpend1 : pendingAfter [] (a.conversation ++ [choice.Message])
            = choice.Message.ToolCalls.map (fun c => c.ID) := by
          rw [pendingAfter_append]
          simp [pendingAfter, hr, role_assistant_ne_tool, toolCallIDs]
        split
        · split
          · exact hok1
          · exact ih _ _ hok1
        · have hrun := runToolCalls_scanOK env choice.Message.ToolCalls
            { a with conversation := a.conversation ++ [choice.Message] } s1 hok1 hpend1
          split
          · rename_i heq; rw [heq] at hrun; exact hrun
          · rename_i heq; rw [heq] at hrun; exact hrun
          · rename_i heq; rw [heq] at hrun; exact ih _ _ hrun

/-- A run of `ExecuteTask` keeps the invariant. -/
theorem ExecuteTask_scanOK {σ : Type} (env : Env σ)
    (hrole : ∀ (client : Nat) (req : ChatCompletionRequest) (s s1 : σ)
      (resp : ChatCompletionResponse) (choice : ChatCompletionChoice)
      (others : List ChatCompletionChoice),
      env.CreateChatCompletion client req s = (Except.ok resp, s1) →
      resp.Choices = choice :: others → choice.Message.Role = ChatMessageRoleAssistant)
    (a : AIAgent) (task : GoString) (s : σ) (hok : scanOK [] a.conversation) :
    scanOK [] (ExecuteTask env a task s).2.1.conversation := by
  unfold ExecuteTask
  apply iterate_scanOK env _ hrole
  simp only []
  rw [scanOK_append]
  refine ⟨hok, ?_⟩
  simp [scanOK, role_user_ne_tool, role_user_ne_assistant]

/-- Every reachable transcript passes the scan. -/
theorem reachable_scanOK {σ : Type} (env : Env σ)
    (hrole : ∀ (client : Nat) (req : ChatCompletionRequest) (s s1 : σ)
      (resp : ChatCompletionResponse) (choice : ChatCompletionChoice)
      (others : List ChatCompletionChoice),
      env.CreateChatCompletion client req s = (Except.ok resp, s1) →
      resp.Choices = choice :: others → choice.Message.Role = ChatMessageRoleAssistant)
    (a : AIAgent) (h : Reachable env a) : scanOK [] a.conversation := by
  induction h with
  | fresh apiKey client bm a hnew =>
    unfold NewAIAgent at hnew
    split at hnew
    · cases hnew
    · cases hnew
      simp [initializeSystemPrompt, scanOK, role_system_ne_tool, role_system_ne_assistant]
  | executeTask a task s _ ih => exact ExecuteTask_scanOK env hrole a task s ih
  | clearHistory a _ _ =>
    simp [ClearHistory, initializeSystemPrompt, scanOK, role_system_ne_tool,
      role_system_ne_assistant]


/-- A transcript that passes the scan: each `tool` turn answers the nearest
assistant turn before it, or the ids pending at the start. -/
theorem scanOK_tool_turn (conv : List ChatCompletionMessage) :
    ∀ (pending : List GoString) (before : List ChatCompletionMessage)
      (m : ChatCompletionMessage) (after : List ChatCompletionMessage),
      scanOK pending conv → conv = before ++ m :: after → m.Role = ChatMessageRoleTool →
      (∃ (earlier : List ChatCompletionMessage) (am : ChatCompletionMessage)
          (between : List ChatCompletionMessage),
          before = earlier ++ am :: between
          ∧ am.Role = ChatMessageRoleAssistant
          ∧ (∀ t ∈ between, t.Role = ChatMessageRoleTool)
          ∧ (between ++ [m]).map (fun t => t.ToolCallID) <+: toolCallIDs am)
      ∨ ((∀ t ∈ before, t.Role = ChatMessageRoleTool)
          ∧ (before ++ [m]).map (fun t => t.ToolCallID) <+: pending) := by
  induction conv with
  | nil =>
    intro p before m after _ h _
    simp at h
  | cons x rest ih =>
    intro p before m after hok hconv hm
    cases before with
    | nil =>
      simp only [List.nil_append, List.cons.injEq] at hconv
      obtain ⟨rfl, rfl⟩ := hconv
      right
      simp only [scanOK, hm, if_true] at hok
      cases p with
      | nil => exact absurd hok (by simp)
      | cons id ids =>
        obtain ⟨hid, _⟩ := hok
        refine ⟨by simp, ?_⟩
        simp only [List.nil_append, List.map_cons, List.map_nil, hid]
        exact List.prefix_iff_eq_append.mpr (by simp)
    | cons b before1 =>
      simp only [List.cons_append, List.cons.injEq] at hconv
      obtain ⟨rfl, hrest⟩ := hconv
      simp only [scanOK] at hok
      by_cases hx : x.Role = ChatMessageRoleTool
      · simp only [hx, if_true] at hok
        cases p with
        | nil => exact absurd hok (by simp)
        | cons id ids =>
          obtain ⟨hid, hok1⟩ := hok
          rcases ih ids before1 m after hok1 hrest hm with
            ⟨earlier, am, between, hb, ha, ht, hp⟩ | ⟨ht, hp⟩
          · left
            exact ⟨x :: earlier, am, between, by simp [hb], ha, ht, hp⟩
          · right
            refine ⟨?_, ?_⟩
            · intro t htm
              rcases List.mem_cons.mp htm with rfl | h
              · exact hx
              · exact ht t h
            · simp only [List.cons_append, List.map_cons, hid]
              exact (List.prefix_cons_inj id).mpr hp
      · simp only [hx, if_false] at hok
        by_cases ha : x.Role = ChatMessageRoleAssistant
        · simp only [ha, if_true] at hok
          rcases ih _ before1 m after hok hrest hm with
            ⟨earlier, am, between, hb, ha1, ht, hp⟩ | ⟨ht, hp⟩
          · left
            exact ⟨x :: earlier, am, between, by simp [hb], ha1, ht, hp⟩
          · left
            exact ⟨[], x, before1, rfl, ha, ht, hp⟩
        · simp only [ha, if_false] at hok
          rcases ih _ before1 m after hok hrest hm with
            ⟨earlier, am, between, hb, ha1, ht, hp⟩ | ⟨_, hp⟩
          · left
            exact ⟨x :: earlier, am, between, by simp [hb], ha1, ht, hp⟩
          · exfalso
            have := List.prefix_nil.mp hp
            simp at this

/-- The scan implies the invariant as the claim words it. -/
theorem scanOK_toolTurnsAnswer (conv : List ChatCompletionMessage) (h : scanOK [] conv) :
    ToolTurnsAnswer conv := by
  intro before m after hconv hm
  rcases scanOK_tool_turn conv [] before m after h hconv hm with
    ⟨earlier, am, between, hb, ha, ht, hp⟩ | ⟨_, hp⟩
  · refine ⟨earlier, am, between, hb, ha, ht, ?_, hp⟩
    have hmem : m.ToolCallID ∈ toolCallIDs am := by
      apply hp.subset
      simp
    unfold toolCallIDs at hmem
    obtain ⟨c, hc, hid⟩ := List.mem_map.mp hmem
    exact ⟨c, hc, hid⟩
  · exfalso
    have := List.prefix_nil.mp hp
    simp at this

/-- The tool loop only appends to the transcript. -/
theorem runToolCalls_appends {σ : Type} (env : Env σ) (calls : List ToolCall) :
    ∀ (a : AIAgent) (s : σ),
      a.conversation <+: (runToolCalls env calls a s).2.1.conversation := by
  induction calls with
  | nil => intro a s; exact List.prefix_refl _
  | cons toolCall rest ih =>
    intro a s
    rw [runToolCalls]
    rcases hE : executeTool env a toolCall s with ⟨r, s1⟩
    cases r with
    | panic v => exact List.prefix_refl _
    | ret result =>
      simp only []
      split
      · split
        · exact List.prefix_append _ _
        · refine List.IsPrefix.trans ?_ (ih _ _)
          exact List.prefix_append _ _
      · refine List.IsPrefix.trans ?_ (ih _ _)
        exact List.prefix_append _ _

/-- The agent loop only appends to the transcript. -/
theorem iterate_appends {σ : Type} (env : Env σ) (tools : List Tool) :
    ∀ (remaining : Nat) (a : AIAgent) (s : σ),
      a.conversation <+: (iterate env tools remaining a s).2.1.conversation := by
  intro remaining
  induction remaining with
  | zero => intro a s; exact List.prefix_refl _
  | succ n ih =>
    intro a s
    rw [iterate]
    rcases hC : env.CreateChatCompletion a.client
      { Model := GPT4TurboPreview, Messages := a.conversation, Tools := tools } s with ⟨r, s1⟩
    cases r with
    | error err => exact List.prefix_refl _
    | ok resp =>
      simp only []
      rcases hCh : resp.Choices with _ | ⟨choice, others⟩
      · exact List.prefix_refl _
      · simp only []
        split
        · split
          · exact List.prefix_append _ _
          · refine List.IsPrefix.trans ?_ (ih _ _)
            exact List.prefix_append _ _
        · have hrun := runToolCalls_appends env choice.Message.ToolCalls
            { a with conversation := a.conversation ++ [choice.Message] } s1
          split
          · rename_i heq; rw [heq] at hrun; exact (List.prefix_append _ _).trans hrun
          · rename_i heq; rw [heq] at hrun; exact (List.prefix_append _ _).trans hrun
          · rename_i heq; rw [heq] at hrun
            exact ((List.prefix_append _ _).trans hrun).trans (ih _ _)

/-- A run of `ExecuteTask` only appends to the transcript. -/
theorem ExecuteTask_appends {σ : Type} (env : Env σ) (a : AIAgent) (task : GoString) (s : σ) :
    a.conversation <+: (ExecuteTask env a task s).2.1.conversation := by
  unfold ExecuteTask
  simp only []
  refine List.IsPrefix.trans ?_ (iterate_appends env _ _ _ _)
  exact List.prefix_append _ _

/-- C6, as amended. When every message the LLM returns carries the role
`assistant`, then in every transcript reachable from a freshly constructed agent
by calls of `ExecuteTask` and `ClearHistory`, whatever the LLM and the browser
do otherwise, every `tool` turn follows an assistant turn with only `tool`
turns in between, its `ToolCallID` is the id of a tool call listed in that
assistant turn, and the `tool` turns after that assistant turn, up to this one,
carry in order the ids of a prefix of its tool-call list; and the transcript
before a run of `ExecuteTask` is a prefix of the transcript after it. -/
theorem reachable_transcript_invariant {σ : Type} (env : Env σ)
    (hrole : ∀ (client : Nat) (req : ChatCompletionRequest) (s s1 : σ)
      (resp : ChatCompletionResponse) (choice : ChatCompletionChoice)
      (others : List ChatCompletionChoice),
      env.CreateChatCompletion client req s = (Except.ok resp, s1) →
      resp.Choices = choice :: others → choice.Message.Role = ChatMessageRoleAssistant)
    (a : AIAgent) (h : Reachable env a) :
    ToolTurnsAnswer a.conversation
    ∧ ∀ (task : GoString) (s : σ),
        a.conversation <+: (ExecuteTask env a task s).2.1.conversation :=
  ⟨scanOK_toolTurnsAnswer _ (reachable_scanOK env hrole a h),
    fun task s => ExecuteTask_appends env a task s⟩


/-- C6, the counterexample. The LLM answers the first call of a new agent with a
message of role `tool` (id `x`, no tool calls); `ExecuteTask` appends it as it
is, and the transcript `system, user, tool` has a `tool` turn with no assistant
turn before it. -/
theorem tool_role_reply_breaks_invariant :
    NewAIAgent (utf8 "sk-key") 1 { browser := 2, page := 3 } = Except.ok (Fixture.agent 20)
    ∧ Reachable (Fixture.env (fun _ => Fixture.toolRoleReply) none)
        (ExecuteTask (Fixture.env (fun _ => Fixture.toolRoleReply) none) (Fixture.agent 20)
          (utf8 "hello") 0).2.1
    ∧ (ExecuteTask (Fixture.env (fun _ => Fixture.toolRoleReply) none) (Fixture.agent 20)
          (utf8 "hello") 0).2.1.conversation
        = [Fixture.systemTurn, Fixture.userTurn (utf8 "hello"), Fixture.toolRoleReply]
    ∧ ¬ ToolTurnsAnswer (ExecuteTask (Fixture.env (fun _ => Fixture.toolRoleReply) none)
          (Fixture.agent 20) (utf8 "hello") 0).2.1.conversation := by
  have hnew : NewAIAgent (utf8 "sk-key") 1 { browser := 2, page := 3 }
      = Except.ok (Fixture.agent 20) := by decide
  have hconv : (ExecuteTask (Fixture.env (fun _ => Fixture.toolRoleReply) none) (Fixture.agent 20)
          (utf8 "hello") 0).2.1.conversation
        = [Fixture.systemTurn, Fixture.userTurn (utf8 "hello"), Fixture.toolRoleReply] := by
    decide
  refine ⟨hnew, Reachable.executeTask _ _ _ (Reachable.fresh _ _ _ _ hnew), hconv, ?_⟩
  rw [hconv]
  intro h
  obtain ⟨earlier, am, between, hb, ha, -, -, -⟩ :=
    h [Fixture.systemTurn, Fixture.userTurn (utf8 "hello")] Fixture.toolRoleReply [] rfl rfl
  rcases earlier with _ | ⟨e1, _ | ⟨e2, rest⟩⟩
  · simp only [List.nil_append, List.cons.injEq] at hb
    obtain ⟨rfl, _⟩ := hb
    exact absurd ha (by decide)
  · simp only [List.cons_append, List.nil_append, List.cons.injEq] at hb
    obtain ⟨_, rfl, _⟩ := hb
    exact absurd ha (by decide)
  · simp at hb

/-- The witness of `reachable_transcript_invariant`: a new agent after one task
that the LLM answers with two tool calls and then with `complete_task`. The
transcript has three `tool` turns, each answering a call of the assistant turn
before it, in order. -/
theorem reachable_transcript_invariant_witness :
    (ExecuteTask (Fixture.env Fixture.twoRounds none) (Fixture.agent 20)
        (utf8 "hello") 0).2.1.conversation
      = [Fixture.systemTurn, Fixture.userTurn (utf8 "hello"),
          Fixture.twoRounds 0,
          toolTurn (Fixture.call "call_1" "get_page_info" "\x7b\x7d")
            (utf8 "URL: about:blank\nЗаголовок: "),
          toolTurn (Fixture.call "call_2" "get_elements" "\x7b\"selector\":\"a\"\x7d")
            (utf8 "Элементы с селектором \x27a\x27 не найдены"),
          Fixture.twoRounds 1,
          toolTurn (Fixture.call "call_3" "complete_task" "\x7b\"result\":\"done\"\x7d")
            (utf8 "Задача завершена: done")]
    ∧ ToolTurnsAnswer
        (ExecuteTask (Fixture.env Fixture.twoRounds none)
          (Fixture.agent 20) (utf8 "hello") 0).2.1.conversation
    ∧ ∀ (task : GoString) (s : Nat),
        (ExecuteTask (Fixture.env Fixture.twoRounds none)
          (Fixture.agent 20) (utf8 "hello") 0).2.1.conversation
          <+: (ExecuteTask (Fixture.env Fixture.twoRounds none)
                (ExecuteTask (Fixture.env Fixture.twoRounds none)
                  (Fixture.agent 20) (utf8 "hello") 0).2.1 task s).2.1.conversation :=
  ⟨by decide,
    reachable_transcript_invariant (Fixture.env Fixture.twoRounds none)
      (by
        intro client req s s1 resp choice others h hc
        simp only [Fixture.env, Prod.mk.injEq, Except.ok.injEq] at h
        obtain ⟨rfl, _⟩ := h
        simp only [List.cons.injEq] at hc
        obtain ⟨rfl, _⟩ := hc
        rfl)
      _ (Reachable.executeTask _ _ _
          (Reachable.fresh (utf8 "sk-key") 1 { browser := 2, page := 3 } _ (by decide)))⟩

/-- C1, the failing input. The LLM answers every call with one `click_element`
tool call; the page has the element but the click reports an error. `MustClick`
panics in the first iteration: the run makes one LLM call, not twenty, and ends
in the panic, not in the budget error. -/
theorem ExecuteTask_click_panic_ends_run :
    (ExecuteTask
        (recording (Fixture.env
          (fun _ => Fixture.assistant []
            [Fixture.call "call_1" "click_element" "\x7b\"selector\":\"#a\"\x7d"])
          (some Fixture.notInteractable)))
        (Fixture.agent 20) (utf8 "click it") (0, [])).1
      = Outcome.panic Fixture.notInteractable
    ∧ llmCalls (ExecuteTask
        (recording (Fixture.env
          (fun _ => Fixture.assistant []
            [Fixture.call "call_1" "click_element" "\x7b\"selector\":\"#a\"\x7d"])
          (some Fixture.notInteractable)))
        (Fixture.agent 20) (utf8 "click it") (0, [])).2.2.2 = 1 := by
  decide

/-- C2, the failing input. The batch is a `click_element` call followed by
`complete_task` with the payload `{"result":"done"}`, which parses; the click
reports an error, `MustClick` panics, and `ExecuteTask` does not return `done`. -/
theorem ExecuteTask_panic_before_complete_task :
    ParseArguments (utf8 "\x7b\"result\":\"done\"\x7d") (JSON.Struct.zero : CompleteTaskArgs)
      = Except.ok { Result := utf8 "done" }
    ∧ (ExecuteTask
        (Fixture.env
          (fun _ => Fixture.assistant []
            [Fixture.call "call_1" "click_element" "\x7b\"selector\":\"#a\"\x7d",
             Fixture.call "call_2" "complete_task" "\x7b\"result\":\"done\"\x7d"])
          (some Fixture.notInteractable))
        (Fixture.agent 20) (utf8 "click it") 0).1
      = Outcome.panic Fixture.notInteractable := by
  decide


/-! ### What holds of dispatch, early exit and the budget when no browser operation panics -/

/-- Tool dispatch returns a result for every tool whose browser operation has no
`Must` call: every name other than `get_page_content`, `get_page_info` and
`click_element`. -/
theorem executeTool_returns {σ : Type} (env : Env σ) (a : AIAgent) (toolCall : ToolCall) (s : σ)
    (h1 : toolCall.Function.Name ≠ utf8 "get_page_content")
    (h2 : toolCall.Function.Name ≠ utf8 "get_page_info")
    (h3 : toolCall.Function.Name ≠ utf8 "click_element") :
    ∃ result : ToolResult, (executeTool env a toolCall s).1 = Outcome.ret result := by
  unfold executeTool
  simp only [h1, h2, h3, if_false]
  repeat' split
  all_goals exact ⟨_, rfl⟩

/-- A name outside the catalog: the result says that the tool is unknown and
names it, and no collaborator is called. -/
theorem executeTool_unknown_tool {σ : Type} (env : Env σ) (a : AIAgent) (toolCall : ToolCall)
    (s : σ) (h : ∀ tool ∈ GetBrowserTools, toolCall.Function.Name ≠ tool.Function.Name) :
    executeTool env a toolCall s
      = (Outcome.ret (NewToolResult toolCall.ID
          (utf8 "Неизвестный инструмент: " ++ toolCall.Function.Name)), s) := by
  have hn : ∀ name : GoString,
      (∃ tool ∈ GetBrowserTools, tool.Function.Name = name) → toolCall.Function.Name ≠ name := by
    rintro name ⟨tool, ht, rfl⟩
    exact h tool ht
  unfold executeTool
  rw [if_neg (hn _ (by decide)), if_neg (hn _ (by decide)), if_neg (hn _ (by decide)),
    if_neg (hn _ (by decide)), if_neg (hn _ (by decide)), if_neg (hn _ (by decide)),
    if_neg (hn _ (by decide)), if_neg (hn _ (by decide))]

/-- A `complete_task` call whose payload parses ends the batch with its result:
the calls queued after it are not dispatched, no turn is appended for them, and
no collaborator is called. -/
theorem runToolCalls_complete_task {σ : Type} (env : Env σ) (a : AIAgent) (toolCall : ToolCall)
    (queued : List ToolCall) (s : σ) (args : CompleteTaskArgs)
    (hname : toolCall.Function.Name = utf8 "complete_task")
    (hargs : ParseArguments toolCall.Function.Arguments (JSON.Struct.zero : CompleteTaskArgs)
      = Except.ok args) :
    runToolCalls env (toolCall :: queued) a s
      = (BatchEnd.returned args.Result,
          { a with
            conversation :=
              a.conversation ++ [toolTurn toolCall (utf8 "Задача завершена: " ++ args.Result)] },
          s) := by
  have hexec : executeTool env a toolCall s
      = (Outcome.ret (NewToolResult toolCall.ID (utf8 "Задача завершена: " ++ args.Result)), s) := by
    simp +decide [executeTool, hname, hargs]
  rw [runToolCalls, hexec]
  simp [hname, hargs, toolTurn, NewToolResult]

/-- The calls after a part of the batch that was dispatched without ending the
loop are run from where that part left off. -/
theorem runToolCalls_append {σ : Type} (env : Env σ) (first : List ToolCall) :
    ∀ (others : List ToolCall) (a a1 : AIAgent) (s s1 : σ),
      runToolCalls env first a s = (BatchEnd.exhausted, a1, s1) →
      runToolCalls env (first ++ others) a s = runToolCalls env others a1 s1 := by
  induction first with
  | nil =>
    intro others a a1 s s1 h
    simp only [runToolCalls, Prod.mk.injEq, true_and] at h
    obtain ⟨rfl, rfl⟩ := h
    rfl
  | cons toolCall rest ih =>
    intro others a a1 s s1 h
    rw [List.cons_append, runToolCalls]
    rw [runToolCalls] at h
    rcases hE : executeTool env a toolCall s with ⟨r, s2⟩
    rw [hE] at h
    cases r with
    | panic v => simp at h
    | ret result =>
      simp only [] at h ⊢
      split at h
      · split at h
        · simp at h
        · split <;> exact ih _ _ _ _ _ h
      · rename_i hn
        simp only [hn, if_false]
        exact ih _ _ _ _ _ h

/-- Early exit on `complete_task`. When the calls of a batch before a
`complete_task` call with a payload that parses were dispatched without a panic
and without ending the task, the batch ends with that call's `result`; the calls
queued after it play no part. -/
theorem runToolCalls_first_complete_task {σ : Type} (env : Env σ) (first : List ToolCall)
    (toolCall : ToolCall) (queued : List ToolCall) (a a1 : AIAgent) (s s1 : σ)
    (args : CompleteTaskArgs)
    (hfirst : runToolCalls env first a s = (BatchEnd.exhausted, a1, s1))
    (hname : toolCall.Function.Name = utf8 "complete_task")
    (hargs : ParseArguments toolCall.Function.Arguments (JSON.Struct.zero : CompleteTaskArgs)
      = Except.ok args) :
    runToolCalls env (first ++ toolCall :: queued) a s
      = (BatchEnd.returned args.Result,
          { a1 with
            conversation :=
              a1.conversation ++ [toolTurn toolCall (utf8 "Задача завершена: " ++ args.Result)] },
          s1) := by
  rw [runToolCalls_append env first _ a a1 s s1 hfirst,
    runToolCalls_complete_task env a1 toolCall queued s1 args hname hargs]

/-- The tool loop changes nothing of the agent but its transcript. -/
theorem runToolCalls_maxIterations {σ : Type} (env : Env σ) (calls : List ToolCall) :
    ∀ (a : AIAgent) (s : σ),
      (runToolCalls env calls a s).2.1.maxIterations = a.maxIterations := by
  induction calls with
  | nil => intro a s; rfl
  | cons toolCall rest ih =>
    intro a s
    rw [runToolCalls]
    rcases hE : executeTool env a toolCall s with ⟨r, s1⟩
    cases r with
    | panic v => rfl
    | ret result =>
      simp only []
      split
      · split
        · rfl
        · exact ih _ _
      · exact ih _ _

/-- A batch in which every dispatch returns and no call is a `complete_task` call
with a payload that parses runs to its end. -/
theorem runToolCalls_exhausted {σ : Type} (env : Env σ)
    (hreturns : ∀ (a : AIAgent) (toolCall : ToolCall) (s : σ),
      ∃ result : ToolResult, (executeTool env a toolCall s).1 = Outcome.ret result)
    (calls : List ToolCall)
    (hcalls : ∀ toolCall ∈ calls, toolCall.Function.Name = utf8 "complete_task" →
      ∀ args : CompleteTaskArgs,
        ParseArguments toolCall.Function.Arguments (JSON.Struct.zero : CompleteTaskArgs)
          ≠ Except.ok args) :
    ∀ (a : AIAgent) (s : σ), (runToolCalls env calls a s).1 = BatchEnd.exhausted := by
  induction calls with
  | nil => intro a s; rfl
  | cons toolCall rest ih =>
    intro a s
    have ih1 := ih (fun tc htc => hcalls tc (List.mem_cons_of_mem _ htc))
    rw [runToolCalls]
    obtain ⟨result, hres⟩ := hreturns a toolCall s
    rcases hE : executeTool env a toolCall s with ⟨r, s1⟩
    rw [hE] at hres
    simp only [] at hres
    subst hres
    simp only []
    split
    · rename_i hn
      split
      · rename_i args hp
        exact absurd hp (hcalls toolCall (List.mem_cons_self _ _) hn args)
      · exact ih1 _ _
    · exact ih1 _ _

/-- Budget exhaustion. When the LLM answers every call with a non-empty batch of
tool calls none of which is a `complete_task` call with a payload that parses,
and every dispatch returns (no browser operation panics), the loop makes exactly
as many LLM calls as it has iterations to go and then returns the
budget-exceeded error, which carries `maxIterations`. -/
theorem iterate_exhausts_budget {σ : Type} (env : Env σ) (tools : List Tool)
    (hreply : ∀ (client : Nat) (req : ChatCompletionRequest) (s : σ),
      ∃ (resp : ChatCompletionResponse) (s1 : σ) (choice : ChatCompletionChoice)
        (others : List ChatCompletionChoice),
        env.CreateChatCompletion client req s = (Except.ok resp, s1)
        ∧ resp.Choices = choice :: others
        ∧ choice.Message.ToolCalls ≠ []
        ∧ ∀ toolCall ∈ choice.Message.ToolCalls,
            toolCall.Function.Name = utf8 "complete_task" →
            ∀ args : CompleteTaskArgs,
              ParseArguments toolCall.Function.Arguments (JSON.Struct.zero : CompleteTaskArgs)
                ≠ Except.ok args)
    (hreturns : ∀ (a : AIAgent) (toolCall : ToolCall) (w : σ × List Event),
      ∃ result : ToolResult, (executeTool (recording env) a toolCall w).1 = Outcome.ret result) :
    ∀ (remaining : Nat) (a : AIAgent) (w : σ × List Event),
      (iterate (recording env) tools remaining a w).1
          = Outcome.ret (Except.error (budgetError a.maxIterations))
      ∧ llmCalls (iterate (recording env) tools remaining a w).2.2.2
          = llmCalls w.2 + remaining := by
  intro remaining
  induction remaining with
  | zero => intro a w; simp [iterate]
  | succ n ih =>
    intro a w
    obtain ⟨resp, s1, choice, others, hC, hCh, hne, hcalls⟩ := hreply a.client
      { Model := GPT4TurboPreview, Messages := a.conversation, Tools := tools } w.1
    have hlen : choice.Message.ToolCalls.length ≠ 0 := by
      intro h; exact hne (List.length_eq_zero.mp h)
    rw [iterate]
    simp only [recording_CreateChatCompletion, hC, hCh, hlen, if_false]
    have hex := runToolCalls_exhausted (recording env) hreturns choice.Message.ToolCalls hcalls
      { a with conversation := a.conversation ++ [choice.Message] }
      (s1, w.2 ++ [Event.createChatCompletion a.client
        { Model := GPT4TurboPreview, Messages := a.conversation, Tools := tools }])
    have hmax := runToolCalls_maxIterations (recording env) choice.Message.ToolCalls
      { a with conversation := a.conversation ++ [choice.Message] }
      (s1, w.2 ++ [Event.createChatCompletion a.client
        { Model := GPT4TurboPreview, Messages := a.conversation, Tools := tools }])
    have hb := llmCalls_of_browserOnly (runToolCalls_browserOnly env choice.Message.ToolCalls
      { a with conversation := a.conversation ++ [choice.Message] }
      (s1, w.2 ++ [Event.createChatCompletion a.client
        { Model := GPT4TurboPreview, Messages := a.conversation, Tools := tools }]))
    have step : llmCalls (w.2 ++ [Event.createChatCompletion a.client
        { Model := GPT4TurboPreview, Messages := a.conversation, Tools := tools }])
          = llmCalls w.2 + 1 := by
      simp [llmCalls_append, llmCalls, Event.isLLM]
    rcases hR : runToolCalls (recording env) choice.Message.ToolCalls
      { a with conversation := a.conversation ++ [choice.Message] }
      (s1, w.2 ++ [Event.createChatCompletion a.client
        { Model := GPT4TurboPreview, Messages := a.conversation, Tools := tools }])
      with ⟨e, a2, w2⟩
    rw [hR] at hex hmax hb
    simp only [] at hex hmax hb
    subst hex
    simp only []
    obtain ⟨h1, h2⟩ := ih a2 w2
    refine ⟨by rw [h1, hmax], ?_⟩
    rw [h2, hb, step]
    omega

/-- Budget exhaustion for a run of `ExecuteTask`, under the same two conditions:
exactly `maxIterations` LLM calls, then the budget-exceeded error. -/
theorem ExecuteTask_exhausts_budget {σ : Type} (env : Env σ)
    (hreply : ∀ (client : Nat) (req : ChatCompletionRequest) (s : σ),
      ∃ (resp : ChatCompletionResponse) (s1 : σ) (choice : ChatCompletionChoice)
        (others : List ChatCompletionChoice),
        env.CreateChatCompletion client req s = (Except.ok resp, s1)
        ∧ resp.Choices = choice :: others
        ∧ choice.Message.ToolCalls ≠ []
        ∧ ∀ toolCall ∈ choice.Message.ToolCalls,
            toolCall.Function.Name = utf8 "complete_task" →
            ∀ args : CompleteTaskArgs,
              ParseArguments toolCall.Function.Arguments (JSON.Struct.zero : CompleteTaskArgs)
                ≠ Except.ok args)
    (hreturns : ∀ (a : AIAgent) (toolCall : ToolCall) (w : σ × List Event),
      ∃ result : ToolResult, (executeTool (recording env) a toolCall w).1 = Outcome.ret result)
    (a : AIAgent) (task : GoString) (s : σ) :
    (ExecuteTask (recording env) a task (s, [])).1
        = Outcome.ret (Except.error (budgetError a.maxIterations))
    ∧ llmCalls (ExecuteTask (recording env) a task (s, [])).2.2.2 = a.maxIterations.toNat := by
  have h := iterate_exhausts_budget env (convertToolsToOpenAI GetBrowserTools) hreply hreturns
    a.maxIterations.toNat
    { a with conversation := a.conversation ++
        [{ Role := ChatMessageRoleUser, Content := task, ToolCalls := [], ToolCallID := [] }] }
    (s, [])
  simpa [ExecuteTask, llmCalls] using h


/-! ### The log is a pure observer -/

section Faithful
variable {σ : Type} (env : Env σ) (bm : BrowserManager)

/-- Recording changes nothing of `Navigate`. -/
theorem Navigate_recording (url : GoString) (w : σ × List Event) :
    ((bm.Navigate (recording env) url w).1, (bm.Navigate (recording env) url w).2.1)
      = bm.Navigate env url w.1 := by
  unfold BrowserManager.Navigate
  simp only [recording]
  generalize (if (!HasPrefix url (utf8 "http://") && !HasPrefix url (utf8 "https://")) = true then
            utf8 "https://" ++ url else url) = d
  rcases h1 : env.pageNavigate bm.page (30 * Second) d w.1 with ⟨_ | e1, s1⟩
  · simp only []
    rcases h2 : env.pageWaitLoad bm.page s1 with ⟨_ | e2, s2⟩ <;> rfl
  · rfl

/-- Recording changes nothing of `GetPageContent`. -/
theorem GetPageContent_recording (w : σ × List Event) :
    ((bm.GetPageContent (recording env) w).1, (bm.GetPageContent (recording env) w).2.1)
      = bm.GetPageContent env w.1 := by
  unfold BrowserManager.GetPageContent
  simp only [recording]
  rcases h1 : env.pageHTML bm.page w.1 with ⟨e1 | v, s1⟩ <;> rfl

/-- Recording changes nothing of `GetPageText`. -/
theorem GetPageText_recording (w : σ × List Event) :
    ((bm.GetPageText (recording env) w).1, (bm.GetPageText (recording env) w).2.1)
      = bm.GetPageText env w.1 := by
  rcases h1 : env.pageElement bm.page none (utf8 "body") w.1 with ⟨e1 | v, s1⟩
  · simp only [BrowserManager.GetPageText, recording, must, h1]
  · simp only [BrowserManager.GetPageText, recording, must, h1]
    rcases h2 : v.Text with e2 | t <;> rfl

/-- Recording changes nothing of `GetPageURL`. -/
theorem GetPageURL_recording (w : σ × List Event) :
    ((bm.GetPageURL (recording env) w).1, (bm.GetPageURL (recording env) w).2.1)
      = bm.GetPageURL env w.1 := by
  rcases h1 : env.pageInfo bm.page w.1 with ⟨e1 | v, s1⟩ <;>
    simp only [BrowserManager.GetPageURL, recording, must, h1]

/-- Recording changes nothing of `GetPageTitle`. -/
theorem GetPageTitle_recording (w : σ × List Event) :
    ((bm.GetPageTitle (recording env) w).1, (bm.GetPageTitle (recording env) w).2.1)
      = bm.GetPageTitle env w.1 := by
  rcases h1 : env.pageInfo bm.page w.1 with ⟨e1 | v, s1⟩ <;>
    simp only [BrowserManager.GetPageTitle, recording, must, h1]

/-- Recording changes nothing of `ClickElement`. -/
theorem ClickElement_recording (selector : GoString) (w : σ × List Event) :
    ((bm.ClickElement (recording env) selector w).1,
        (bm.ClickElement (recording env) selector w).2.1)
      = bm.ClickElement env selector w.1 := by
  rcases h1 : env.pageElement bm.page (some (10 * Second)) selector w.1 with ⟨e1 | v, s1⟩
  · simp only [BrowserManager.ClickElement, recording, mustNil, h1]
  · rcases h2 : env.elementClick v s1 with ⟨_ | e2, s2⟩ <;>
      simp only [BrowserManager.ClickElement, recording, mustNil, h1, h2]

/-- Recording changes nothing of `FillInput`. -/
theorem FillInput_recording (selector text : GoString) (w : σ × List Event) :
    ((bm.FillInput (recording env) selector text w).1,
        (bm.FillInput (recording env) selector text w).2.1)
      = bm.FillInput env selector text w.1 := by
  unfold BrowserManager.FillInput
  simp only [recording]
  rcases h1 : env.pageElement bm.page (some (10 * Second)) selector w.1 with ⟨e1 | v, s1⟩
  · rfl
  · simp only []
    rcases h2 : env.elementInput v text s1 with ⟨_ | e2, s2⟩ <;> rfl

/-- Recording changes nothing of the loop of `GetElements`. -/
theorem collect_recording (selector : GoString) (elems : List RodElement) :
    ∀ i : Nat, BrowserManager.collect (recording env) selector i elems
      = BrowserManager.collect env selector i elems := by
  induction elems with
  | nil => intro i; rfl
  | cons e rest ih =>
    intro i
    simp only [BrowserManager.collect, ih]
    rfl

/-- Recording changes nothing of `GetElements`. -/
theorem GetElements_recording (selector : GoString) (w : σ × List Event) :
    ((bm.GetElements (recording env) selector w).1,
        (bm.GetElements (recording env) selector w).2.1)
      = bm.GetElements env selector w.1 := by
  rcases h1 : env.pageElements bm.page (10 * Second) selector w.1 with ⟨e1 | v, s1⟩
  · simp only [BrowserManager.GetElements, recording, h1]
  · simp only [BrowserManager.GetElements, collect_recording]
    simp only [recording, h1]

/-- Recording changes nothing of `WaitForElement`. -/
theorem WaitForElement_recording (selector : GoString) (timeout : Duration)
    (w : σ × List Event) :
    ((bm.WaitForElement (recording env) selector timeout w).1,
        (bm.WaitForElement (recording env) selector timeout w).2.1)
      = bm.WaitForElement env selector timeout w.1 := by
  unfold BrowserManager.WaitForElement
  simp only [recording]
  rcases h1 : env.pageElement bm.page (some timeout) selector w.1 with ⟨e1 | v, s1⟩ <;> rfl

end Faithful

/-- Recording changes nothing of tool dispatch: the result and the world are those
of the run without the log. -/
theorem executeTool_recording {σ : Type} (env : Env σ) (a : AIAgent) (toolCall : ToolCall)
    (w : σ × List Event) :
    ((executeTool (recording env) a toolCall w).1, (executeTool (recording env) a toolCall w).2.1)
      = executeTool env a toolCall w.1 := by
  by_cases h1 : toolCall.Function.Name = utf8 "navigate"
  · simp +decide only [executeTool, h1, if_true]
    rcases hP : ParseArguments toolCall.Function.Arguments (JSON.Struct.zero : NavigateArgs)
      with f | args
    · rfl
    · have h := Navigate_recording env a.browser args.URL w
      rcases hR : a.browser.Navigate (recording env) args.URL w with ⟨r, w1⟩
      rw [hR] at h
      simp only [hR] at h ⊢
      rw [← h]
      cases r <;> rfl
  by_cases h2 : toolCall.Function.Name = utf8 "get_page_content"
  · simp +decide only [executeTool, h1, h2, if_true, if_false]
    have h := GetPageContent_recording env a.browser w
    rcases hR : a.browser.GetPageContent (recording env) w with ⟨r, w1⟩
    rw [hR] at h
    simp only [hR] at h ⊢
    rw [← h]
    cases r with
    | error e => rfl
    | ok html =>
      simp only []
      have h' := GetPageText_recording env a.browser w1
      rcases hT : a.browser.GetPageText (recording env) w1 with ⟨r2, w2⟩
      rw [hT] at h'
      simp only [hT] at h' ⊢
      rw [← h']
      rcases r2 with (_ | _) | _ <;> rfl
  by_cases h3 : toolCall.Function.Name = utf8 "get_page_info"
  · simp +decide only [executeTool, h1, h2, h3, if_true, if_false]
    have h := GetPageURL_recording env a.browser w
    rcases hR : a.browser.GetPageURL (recording env) w with ⟨r, w1⟩
    rw [hR] at h
    simp only [hR] at h ⊢
    rw [← h]
    cases r with
    | panic v => rfl
    | ret url =>
      simp only []
      have h' := GetPageTitle_recording env a.browser w1
      rcases hT : a.browser.GetPageTitle (recording env) w1 with ⟨r2, w2⟩
      rw [hT] at h'
      simp only [hT] at h' ⊢
      rw [← h']
      cases r2 <;> rfl
  by_cases h4 : toolCall.Function.Name = utf8 "click_element"
  · simp +decide only [executeTool, h1, h2, h3, h4, if_true, if_false]
    rcases hP : ParseArguments toolCall.Function.Arguments (JSON.Struct.zero : ClickElementArgs)
      with f | args
    · rfl
    · have h := ClickElement_recording env a.browser args.Selector w
      rcases hR : a.browser.ClickElement (recording env) args.Selector w with ⟨r, w1⟩
      rw [hR] at h
      simp only [hR] at h ⊢
      rw [← h]
      rcases r with (_ | _) | _ <;> rfl
  by_cases h5 : toolCall.Function.Name = utf8 "fill_input"
  · simp +decide only [executeTool, h1, h2, h3, h4, h5, if_true, if_false]
    rcases hP : ParseArguments toolCall.Function.Arguments (JSON.Struct.zero : FillInputArgs)
      with f | args
    · rfl
    · have h := FillInput_recording env a.browser args.Selector args.Text w
      rcases hR : a.browser.FillInput (recording env) args.Selector args.Text w with ⟨r, w1⟩
      rw [hR] at h
      simp only [hR] at h ⊢
      rw [← h]
      cases r <;> rfl
  by_cases h6 : toolCall.Function.Name = utf8 "get_elements"
  · simp +decide only [executeTool, h1, h2, h3, h4, h5, h6, if_true, if_false]
    rcases hP : ParseArguments toolCall.Function.Arguments (JSON.Struct.zero : GetElementsArgs)
      with f | args
    · rfl
    · have h := GetElements_recording env a.browser args.Selector w
      rcases hR : a.browser.GetElements (recording env) args.Selector w with ⟨r, w1⟩
      rw [hR] at h
      simp only [hR] at h ⊢
      rw [← h]
      cases r with
      | error e => rfl
      | ok elements =>
        simp only []
        split <;> rfl
  by_cases h7 : toolCall.Function.Name = utf8 "wait_for_element"
  · simp +decide only [executeTool, h1, h2, h3, h4, h5, h6, h7, if_true, if_false]
    rcases hP : ParseArguments toolCall.Function.Arguments (JSON.Struct.zero : WaitForElementArgs)
      with f | args
    · rfl
    · have h := WaitForElement_recording env a.browser args.Selector (waitTimeout args) w
      rcases hR : a.browser.WaitForElement (recording env) args.Selector (waitTimeout args) w
        with ⟨r, w1⟩
      rw [hR] at h
      simp only [hR] at h ⊢
      rw [← h]
      cases r <;> rfl
  by_cases h8 : toolCall.Function.Name = utf8 "complete_task"
  · simp +decide only [executeTool, h1, h2, h3, h4, h5, h6, h7, h8, if_true, if_false]
    rcases hP : ParseArguments toolCall.Function.Arguments (JSON.Struct.zero : CompleteTaskArgs)
      with f | args <;> rfl
  · simp +decide only [executeTool, h1, h2, h3, h4, h5, h6, h7, h8, if_false]

/-- Recording changes nothing of a batch of tool calls. -/
theorem runToolCalls_recording {σ : Type} (env : Env σ) (calls : List ToolCall) :
    ∀ (a : AIAgent) (w : σ × List Event),
      ((runToolCalls (recording env) calls a w).1, (runToolCalls (recording env) calls a w).2.1,
        (runToolCalls (recording env) calls a w).2.2.1)
        = runToolCalls env calls a w.1 := by
  induction calls with
  | nil => intro a w; rfl
  | cons toolCall rest ih =>
    intro a w
    have h := executeTool_recording env a toolCall w
    rw [runToolCalls, runToolCalls]
    rcases hE : executeTool (recording env) a toolCall w with ⟨r, w1⟩
    rw [hE] at h
    simp only [] at h
    rw [← h]
    cases r with
    | panic v => rfl
    | ret result =>
      simp only []
      split
      · split
        · rfl
        · exact ih _ _
      · exact ih _ _

/-- Recording changes nothing of the agent loop. -/
theorem iterate_recording {σ : Type} (env : Env σ) (tools : List Tool) :
    ∀ (remaining : Nat) (a : AIAgent) (w : σ × List Event),
      ((iterate (recording env) tools remaining a w).1,
        (iterate (recording env) tools remaining a w).2.1,
        (iterate (recording env) tools remaining a w).2.2.1)
        = iterate env tools remaining a w.1 := by
  intro remaining
  induction remaining with
  | zero => intro a w; rfl
  | succ n ih =>
    intro a w
    rw [iterate, iterate]
    simp only [recording_CreateChatCompletion]
    rcases hC : env.CreateChatCompletion a.client
      { Model := GPT4TurboPreview, Messages := a.conversation, Tools := tools } w.1
      with ⟨err | resp, s1⟩
    · rfl
    · simp only []
      rcases hCh : resp.Choices with _ | ⟨choice, others⟩
      · rfl
      · simp only []
        split
        · split
          · rfl
          · exact ih _ _
        · have hrun := runToolCalls_recording env choice.Message.ToolCalls
            { a with conversation := a.conversation ++ [choice.Message] }
            (s1, w.2 ++ [Event.createChatCompletion a.client
              { Model := GPT4TurboPreview, Messages := a.conversation, Tools := tools }])
          rcases hR : runToolCalls (recording env) choice.Message.ToolCalls
            { a with conversation := a.conversation ++ [choice.Message] }
            (s1, w.2 ++ [Event.createChatCompletion a.client
              { Model := GPT4TurboPreview, Messages := a.conversation, Tools := tools }])
            with ⟨e, a2, w2⟩
          rw [hR] at hrun
          simp only [] at hrun
          rw [← hrun]
          cases e with
          | returned result => rfl
          | panicked v => rfl
          | exhausted => exact ih _ _

/-- The log is a pure observer. A run of `ExecuteTask` with recorded collaborators
ends with the outcome, the agent and the world of the run without the log. -/
theorem ExecuteTask_recording {σ : Type} (env : Env σ) (a : AIAgent) (task : GoString)
    (s : σ) (log : List Event) :
    (ExecuteTask (recording env) a task (s, log)).1 = (ExecuteTask env a task s).1
    ∧ (ExecuteTask (recording env) a task (s, log)).2.1 = (ExecuteTask env a task s).2.1
    ∧ (ExecuteTask (recording env) a task (s, log)).2.2.1 = (ExecuteTask env a task s).2.2 := by
  have h := iterate_recording env (convertToolsToOpenAI GetBrowserTools) a.maxIterations.toNat
    { a with conversation := a.conversation ++
        [{ Role := ChatMessageRoleUser, Content := task, ToolCalls := [], ToolCallID := [] }] }
    (s, log)
  unfold ExecuteTask
  simp only [] at h ⊢
  rw [← h]
  exact ⟨rfl, rfl, rfl⟩


/-! ### Truncation of the page content relayed by `get_page_content` -/

theorem truncateString_of_le (s : GoString) (n : Nat) (h : s.length ≤ n) :
    truncateString s n = s := by
  simp [truncateString, h]

theorem truncateString_of_lt (s : GoString) (n : Nat) (h : n < s.length) :
    truncateString s n = s.take n ++ utf8 "..." := by
  simp [truncateString, Nat.not_le.mpr h]

theorem utf8_dots_length : (utf8 "...").length = 3 := by decide

theorem truncateString_length_of_lt (s : GoString) (n : Nat) (h : n < s.length) :
    (truncateString s n).length = n + 3 := by
  rw [truncateString_of_lt s n h, List.length_append, List.length_take, utf8_dots_length,
    Nat.min_eq_left (Nat.le_of_lt h)]

theorem truncateString_length_le (s : GoString) (n : Nat) :
    (truncateString s n).length ≤ n + 3 := by
  rcases Nat.lt_or_ge n s.length with h | h
  · exact Nat.le_of_eq (truncateString_length_of_lt s n h)
  · rw [truncateString_of_le s n h]; omega

/-- The `get_page_content` case of `executeTool` when both reads of the page succeed. -/
theorem executeTool_get_page_content {σ : Type} (env : Env σ) (a : AIAgent)
    (toolCall : ToolCall) (s s1 s2 : σ) (html text : GoString)
    (hname : toolCall.Function.Name = utf8 "get_page_content")
    (hhtml : a.browser.GetPageContent env s = (Except.ok html, s1))
    (htext : a.browser.GetPageText env s1 = (Outcome.ret (Except.ok text), s2)) :
    executeTool env a toolCall s
      = (Outcome.ret (NewToolResult toolCall.ID
          (utf8 "HTML (первые 5000 символов): " ++ truncateString html 5000
            ++ utf8 "\n\nТекст страницы (первые 3000 символов): "
            ++ truncateString text 3000)), s2) := by
  simp +decide [executeTool, hname, hhtml, htext]

theorem isASCII_iff (s : GoString) : isASCII s = true ↔ ∀ b ∈ s, b.toNat < 0x80 := by
  simp [isASCII, List.all_eq_true]

/-- In text of one-byte characters, characters are bytes. -/
theorem characterCount_of_isASCII (s : GoString) (h : isASCII s = true) :
    characterCount s = s.length := by
  rw [isASCII_iff] at h
  unfold characterCount
  rw [List.countP_eq_length]
  intro b hb
  have := h b hb
  simp only [Bool.not_eq_true', Bool.and_eq_false_imp, decide_eq_true_eq,
    decide_eq_false_iff_not]
  omega

theorem isASCII_append (s t : GoString) (hs : isASCII s = true) (ht : isASCII t = true) :
    isASCII (s ++ t) = true := by
  simp only [isASCII, List.all_append, Bool.and_eq_true] at *
  exact ⟨hs, ht⟩

theorem isASCII_take (s : GoString) (n : Nat) (hs : isASCII s = true) :
    isASCII (s.take n) = true := by
  rw [isASCII_iff] at *
  exact fun b hb => hs b (List.mem_of_mem_take hb)

theorem isASCII_replicate (n : Nat) (b : UInt8) (hb : b.toNat < 0x80) :
    isASCII (List.replicate n b) = true := by
  rw [isASCII_iff]
  intro c hc
  rw [(List.mem_replicate.mp hc).2]
  exact hb

theorem isASCII_dots : isASCII (utf8 "...") = true := by decide

theorem isASCII_truncateString (s : GoString) (n : Nat) (hs : isASCII s = true) :
    isASCII (truncateString s n) = true := by
  unfold truncateString
  split
  · exact hs
  · exact isASCII_append _ _ (isASCII_take s n hs) isASCII_dots

/-- C11, as amended. For page HTML and page text in which every character is one
byte, when both reads of the page succeed, the `get_page_content` result is the
two labels with an HTML part of at most 5003 characters and a text part of at
most 3003 characters. For such a text `x`, `truncateString x n` is `x` when `x`
has at most `n` characters; otherwise it is the first `n` characters of `x`
followed by `...`: a text of `n + 3` characters whose first `n` characters are
a prefix of `x`. -/
theorem get_page_content_truncation {σ : Type} (env : Env σ) (a : AIAgent)
    (toolCall : ToolCall) (s s1 s2 : σ) (html text : GoString)
    (hname : toolCall.Function.Name = utf8 "get_page_content")
    (hhtml : a.browser.GetPageContent env s = (Except.ok html, s1))
    (htext : a.browser.GetPageText env s1 = (Outcome.ret (Except.ok text), s2))
    (hhtml1 : isASCII html = true) (htext1 : isASCII text = true) :
    executeTool env a toolCall s
      = (Outcome.ret (NewToolResult toolCall.ID
          (utf8 "HTML (первые 5000 символов): " ++ truncateString html 5000
            ++ utf8 "\n\nТекст страницы (первые 3000 символов): "
            ++ truncateString text 3000)), s2)
    ∧ characterCount (truncateString html 5000) ≤ 5003
    ∧ characterCount (truncateString text 3000) ≤ 3003
    ∧ ∀ (x : GoString) (n : Nat), isASCII x = true →
        (characterCount x ≤ n → truncateString x n = x)
        ∧ (n < characterCount x →
            truncateString x n = x.take n ++ utf8 "..."
            ∧ characterCount (truncateString x n) = n + 3
            ∧ characterCount (x.take n) = n
            ∧ x.take n <+: x) := by
  refine ⟨executeTool_get_page_content env a toolCall s s1 s2 html text hname hhtml htext,
    ?_, ?_, ?_⟩
  · rw [characterCount_of_isASCII _ (isASCII_truncateString html 5000 hhtml1)]
    exact truncateString_length_le html 5000
  · rw [characterCount_of_isASCII _ (isASCII_truncateString text 3000 htext1)]
    exact truncateString_length_le text 3000
  · intro x n hx
    rw [characterCount_of_isASCII x hx,
      characterCount_of_isASCII _ (isASCII_truncateString x n hx),
      characterCount_of_isASCII _ (isASCII_take x n hx)]
    refine ⟨truncateString_of_le x n, ?_⟩
    intro h
    refine ⟨truncateString_of_lt x n h, truncateString_length_of_lt x n h, ?_,
      List.take_prefix n x⟩
    rw [List.length_take, Nat.min_eq_left (Nat.le_of_lt h)]

/-- The witness of `get_page_content_truncation`: a page whose body text is
3001 characters `b` is relayed with the first 3000 of them and `...`, a text
part of 3003 characters; its HTML of 13 characters is relayed whole. -/
theorem get_page_content_truncation_witness :
    (Fixture.call "call_1" "get_page_content" "").Function.Name = utf8 "get_page_content"
    ∧ (Fixture.agent 20).browser.GetPageContent Fixture.longText 0
        = (Except.ok (utf8 "<html></html>"), 0)
    ∧ (Fixture.agent 20).browser.GetPageText Fixture.longText 0
        = (Outcome.ret (Except.ok (List.replicate 3001 0x62)), 0)
    ∧ isASCII (utf8 "<html></html>") = true
    ∧ isASCII (List.replicate 3001 0x62) = true
    ∧ executeTool Fixture.longText (Fixture.agent 20)
        (Fixture.call "call_1" "get_page_content" "") 0
      = (Outcome.ret (NewToolResult (utf8 "call_1")
          (utf8 "HTML (первые 5000 символов): " ++ utf8 "<html></html>"
            ++ utf8 "\n\nТекст страницы (первые 3000 символов): "
            ++ (List.replicate 3000 0x62 ++ utf8 "..."))), 0)
    ∧ characterCount (List.replicate 3000 (0x62 : UInt8) ++ utf8 "...") = 3003 := by
  have h := get_page_content_truncation Fixture.longText (Fixture.agent 20)
    (Fixture.call "call_1" "get_page_content" "") 0 0 0
    (utf8 "<html></html>") (List.replicate 3001 0x62) rfl rfl rfl (by decide)
    (isASCII_replicate 3001 0x62 (by decide))
  have hcut : truncateString (List.replicate 3001 (0x62 : UInt8)) 3000
      = List.replicate 3000 0x62 ++ utf8 "..." := by
    rw [(h.2.2.2 (List.replicate 3001 0x62) 3000 (isASCII_replicate 3001 0x62 (by decide))).2
      (by rw [characterCount_of_isASCII _ (isASCII_replicate 3001 0x62 (by decide)),
        List.length_replicate]; omega) |>.1, List.take_replicate]
    rfl
  have hwhole : truncateString (utf8 "<html></html>") 5000 = utf8 "<html></html>" :=
    (h.2.2.2 (utf8 "<html></html>") 5000 (by decide)).1 (by decide)
  refine ⟨rfl, rfl, rfl, by decide, isASCII_replicate 3001 0x62 (by decide), ?_, ?_⟩
  · rw [h.1, hcut, hwhole]
    rfl
  · rw [characterCount_of_isASCII _
      (isASCII_append _ _ (isASCII_replicate 3000 0x62 (by decide)) isASCII_dots),
      List.length_append, List.length_replicate, utf8_dots_length]

/-- C11 as stated does not hold. A page of 5001 characters `a` is relayed as its
first 5000 characters followed by `...`: an HTML part of 5003 characters, more
than 5000. And `truncateString` of the four characters `abcd` at 3 is `abc...`:
six characters, more than 3, and not a prefix of `abcd`. -/
theorem get_page_content_relays_5003_characters :
    isASCII (List.replicate 5001 0x61) = true
    ∧ characterCount (List.replicate 5001 (0x61 : UInt8)) = 5001
    ∧ (executeTool Fixture.longPage (Fixture.agent 20)
        (Fixture.call "call_1" "get_page_content" "") 0).1
      = Outcome.ret (NewToolResult (utf8 "call_1")
          (utf8 "HTML (первые 5000 символов): " ++ (List.replicate 5000 0x61 ++ utf8 "...")
            ++ utf8 "\n\nТекст страницы (первые 3000 символов): "))
    ∧ characterCount (List.replicate 5000 (0x61 : UInt8) ++ utf8 "...") = 5003
    ∧ characterCount (utf8 "abcd") = 4
    ∧ truncateString (utf8 "abcd") 3 = utf8 "abc..."
    ∧ characterCount (utf8 "abc...") = 6
    ∧ ¬ (utf8 "abc..." <+: utf8 "abcd") := by
  refine ⟨isASCII_replicate 5001 0x61 (by decide), ?_, ?_, ?_, by decide, by decide, by decide,
    by decide⟩
  · rw [characterCount_of_isASCII _ (isASCII_replicate 5001 0x61 (by decide)),
      List.length_replicate]
  · rw [executeTool_get_page_content Fixture.longPage (Fixture.agent 20)
      (Fixture.call "call_1" "get_page_content" "") 0 0 0 (List.replicate 5001 0x61) []
      rfl rfl rfl]
    rw [truncateString_of_lt _ 5000 (by rw [List.length_replicate]; omega),
      truncateString_of_le [] 3000 (Nat.zero_le _), List.take_replicate, List.append_nil]
    rfl
  · rw [characterCount_of_isASCII _
      (isASCII_append _ _ (isASCII_replicate 5000 0x61 (by decide)) isASCII_dots),
      List.length_append, List.length_replicate, utf8_dots_length]

/-! ### The arguments of `wait_for_element` -/

theorem decodeMembers_append {T : Type} (fields : List (JSON.Field T))
    (xs ys : List (GoString × JSON.JVal)) (t : T) (err : Option JSON.Failure) :
    JSON.decodeMembers fields (xs ++ ys) t err
      = JSON.decodeMembers fields ys (JSON.decodeMembers fields xs t err).1
          (JSON.decodeMembers fields xs t err).2 := by
  induction xs generalizing t err with
  | nil => rfl
  | cons x rest ih =>
    rcases x with ⟨key, v⟩
    simp only [List.cons_append, JSON.decodeMembers]
    cases JSON.findField fields key with
    | none => exact ih t err
    | some f =>
      simp only []
      cases f.store v t with
      | ok t1 => exact ih t1 err
      | error value => exact ih t _

theorem findField_timeout (k : GoString) (hk : JSON.foldName k = JSON.foldName (utf8 "timeout")) :
    JSON.findField (JSON.Struct.fields : List (JSON.Field WaitForElementArgs)) k
      = some { name := utf8 "timeout",
               store := fun v t => (JSON.storeInt v t.Timeout).map (fun x => { t with Timeout := x }) } := by
  have h1 : (JSON.foldName (utf8 "selector") == JSON.foldName (utf8 "timeout")) = false := by
    decide
  simp [JSON.findField, JSON.Struct.fields, List.find?, hk, h1]

theorem findField_selector (k : GoString) (hk : JSON.foldName k = JSON.foldName (utf8 "selector")) :
    JSON.findField (JSON.Struct.fields : List (JSON.Field WaitForElementArgs)) k
      = some { name := utf8 "selector",
               store := fun v t => (JSON.storeString v t.Selector).map (fun x => { t with Selector := x }) } := by
  simp +decide [JSON.findField, JSON.Struct.fields, List.find?, hk]

/-- Members whose keys do not name `timeout` leave the field `Timeout` as it is. -/
theorem decodeMembers_Timeout_kept (members : List (GoString × JSON.JVal))
    (t : WaitForElementArgs) (err : Option JSON.Failure)
    (h : ∀ kv ∈ members, JSON.foldName kv.1 ≠ JSON.foldName (utf8 "timeout")) :
    (JSON.decodeMembers (JSON.Struct.fields : List (JSON.Field WaitForElementArgs))
      members t err).1.Timeout = t.Timeout := by
  induction members generalizing t err with
  | nil => rfl
  | cons x rest ih =>
    rcases x with ⟨key, v⟩
    have hkey : JSON.foldName key ≠ JSON.foldName (utf8 "timeout") := h (key, v) (by simp)
    have hrest : ∀ kv ∈ rest, JSON.foldName kv.1 ≠ JSON.foldName (utf8 "timeout") :=
      fun kv hkv => h kv (by simp [hkv])
    by_cases hs : JSON.foldName key = JSON.foldName (utf8 "selector")
    · simp only [JSON.decodeMembers, findField_selector key hs]
      cases hv : JSON.storeString v t.Selector with
      | ok x => simp only [Except.map]; rw [ih _ _ hrest]
      | error value => simp only [Except.map]; rw [ih _ _ hrest]
    · have hnone : JSON.findField (JSON.Struct.fields : List (JSON.Field WaitForElementArgs)) key
          = none := by
        simp [JSON.findField, JSON.Struct.fields, List.find?, beq_false_of_ne (Ne.symm hs),
          beq_false_of_ne (Ne.symm hkey)]
      simp only [JSON.decodeMembers, hnone]
      exact ih _ _ hrest

/-- Members whose keys do not name `selector` leave the field `Selector` as it is. -/
theorem decodeMembers_Selector_kept (members : List (GoString × JSON.JVal))
    (t : WaitForElementArgs) (err : Option JSON.Failure)
    (h : ∀ kv ∈ members, JSON.foldName kv.1 ≠ JSON.foldName (utf8 "selector")) :
    (JSON.decodeMembers (JSON.Struct.fields : List (JSON.Field WaitForElementArgs))
      members t err).1.Selector = t.Selector := by
  induction members generalizing t err with
  | nil => rfl
  | cons x rest ih =>
    rcases x with ⟨key, v⟩
    have hkey : JSON.foldName key ≠ JSON.foldName (utf8 "selector") := h (key, v) (by simp)
    have hrest : ∀ kv ∈ rest, JSON.foldName kv.1 ≠ JSON.foldName (utf8 "selector") :=
      fun kv hkv => h kv (by simp [hkv])
    by_cases hs : JSON.foldName key = JSON.foldName (utf8 "timeout")
    · simp only [JSON.decodeMembers, findField_timeout key hs]
      cases hv : JSON.storeInt v t.Timeout with
      | ok x => simp only [Except.map]; rw [ih _ _ hrest]
      | error value => simp only [Except.map]; rw [ih _ _ hrest]
    · have hnone : JSON.findField (JSON.Struct.fields : List (JSON.Field WaitForElementArgs)) key
          = none := by
        simp [JSON.findField, JSON.Struct.fields, List.find?, beq_false_of_ne (Ne.symm hs),
          beq_false_of_ne (Ne.symm hkey)]
      simp only [JSON.decodeMembers, hnone]
      exact ih _ _ hrest

/-- A payload that is a JSON object and is accepted was decoded member by member
without an error. -/
theorem ParseArguments_object {T : Type} [JSON.Struct T] (payload : GoString)
    (members : List (GoString × JSON.JVal)) (target args : T)
    (hparse : JSON.parse payload = some (JSON.JVal.object members))
    (hargs : ParseArguments payload target = Except.ok args) :
    JSON.decodeMembers (JSON.Struct.fields : List (JSON.Field T)) members target none
      = (args, none) := by
  unfold ParseArguments JSON.Unmarshal at hargs
  rw [hparse] at hargs
  simp only [] at hargs
  rcases hd : JSON.decodeMembers (JSON.Struct.fields : List (JSON.Field T)) members target none
    with ⟨t, e⟩
  rw [hd] at hargs
  cases e with
  | none => simp only [Except.ok.injEq] at hargs; rw [hargs]
  | some e => simp at hargs

/-- The field `Timeout` of an accepted payload is the integer of the last member
whose key names `timeout`. -/
theorem ParseArguments_Timeout_of_member (payload : GoString)
    (members pre post : List (GoString × JSON.JVal)) (args : WaitForElementArgs)
    (k lit : GoString) (t : Int)
    (hparse : JSON.parse payload = some (JSON.JVal.object members))
    (hargs : ParseArguments payload (JSON.Struct.zero : WaitForElementArgs) = Except.ok args)
    (hm : members = pre ++ (k, JSON.JVal.number lit) :: post)
    (hk : JSON.foldName k = JSON.foldName (utf8 "timeout"))
    (hlit : JSON.parseInt64 lit = some t)
    (hpost : ∀ kv ∈ post, JSON.foldName kv.1 ≠ JSON.foldName (utf8 "timeout")) :
    args.Timeout = t := by
  have hd := ParseArguments_object payload members _ args hparse hargs
  rw [hm, decodeMembers_append] at hd
  simp only [JSON.decodeMembers, findField_timeout k hk, JSON.storeInt, hlit, Except.map] at hd
  have h := congrArg (fun r => r.1.Timeout) hd
  simp only [] at h
  rw [decodeMembers_Timeout_kept post _ _ hpost] at h
  exact h.symm

/-- The field `Selector` of an accepted payload is the string of the last member
whose key names `selector`. -/
theorem ParseArguments_Selector_of_member (payload : GoString)
    (members pre post : List (GoString × JSON.JVal)) (args : WaitForElementArgs)
    (k sel : GoString)
    (hparse : JSON.parse payload = some (JSON.JVal.object members))
    (hargs : ParseArguments payload (JSON.Struct.zero : WaitForElementArgs) = Except.ok args)
    (hm : members = pre ++ (k, JSON.JVal.string sel) :: post)
    (hk : JSON.foldName k = JSON.foldName (utf8 "selector"))
    (hpost : ∀ kv ∈ post, JSON.foldName kv.1 ≠ JSON.foldName (utf8 "selector")) :
    args.Selector = sel := by
  have hd := ParseArguments_object payload members _ args hparse hargs
  rw [hm, decodeMembers_append] at hd
  simp only [JSON.decodeMembers, findField_selector k hk, JSON.storeString, Except.map] at hd
  have h := congrArg (fun r => r.1.Selector) hd
  simp only [] at h
  rw [decodeMembers_Selector_kept post _ _ hpost] at h
  exact h.symm

/-- The field `Timeout` of an accepted payload without a member whose key names
`timeout` is zero. -/
theorem ParseArguments_Timeout_absent (payload : GoString)
    (members : List (GoString × JSON.JVal)) (args : WaitForElementArgs)
    (hparse : JSON.parse payload = some (JSON.JVal.object members))
    (hargs : ParseArguments payload (JSON.Struct.zero : WaitForElementArgs) = Except.ok args)
    (habsent : ∀ kv ∈ members, JSON.foldName kv.1 ≠ JSON.foldName (utf8 "timeout")) :
    args.Timeout = 0 := by
  have hd := ParseArguments_object payload members _ args hparse hargs
  have h := decodeMembers_Timeout_kept members (JSON.Struct.zero : WaitForElementArgs) none habsent
  rw [hd] at h
  exact h

theorem waitTimeout_of_pos (args : WaitForElementArgs) (h0 : 0 < args.Timeout)
    (h1 : args.Timeout ≤ 9223372036) : waitTimeout args = args.Timeout * Second := by
  unfold waitTimeout wrap64 Second
  rw [if_pos h0]
  have h2 : ((2 : Int) ^ 63) = 9223372036854775808 := by norm_num
  have h3 : ((2 : Int) ^ 64) = 18446744073709551616 := by norm_num
  rw [h2, h3, Int.emod_eq_of_lt (by omega) (by omega)]
  exact Int.add_sub_cancel _ _

theorem waitTimeout_of_nonpos (args : WaitForElementArgs) (h0 : args.Timeout ≤ 0) :
    waitTimeout args = 10 * Second := by
  unfold waitTimeout
  rw [if_neg (by omega)]

/-- The `wait_for_element` case of `executeTool` for an accepted payload. -/
theorem executeTool_wait_for_element {σ : Type} (env : Env σ) (a : AIAgent)
    (toolCall : ToolCall) (s : σ) (args : WaitForElementArgs)
    (hname : toolCall.Function.Name = utf8 "wait_for_element")
    (hargs : ParseArguments toolCall.Function.Arguments (JSON.Struct.zero : WaitForElementArgs)
      = Except.ok args) :
    executeTool env a toolCall s
      = match a.browser.WaitForElement env args.Selector (waitTimeout args) s with
        | (some err, s1) => (Outcome.ret (NewToolResult toolCall.ID (FormatError err)), s1)
        | (none, s1) =>
          (Outcome.ret (NewToolResult toolCall.ID
            (utf8 "Элемент " ++ args.Selector ++ utf8 " появился")), s1) := by
  simp +decide only [executeTool, hname, hargs]
  rfl

/-- The driver call of `WaitForElement`, as the log records it. -/
theorem WaitForElement_log {σ : Type} (env : Env σ) (bm : BrowserManager)
    (selector : GoString) (timeout : Duration) (s : σ) (log : List Event) :
    (bm.WaitForElement (recording env) selector timeout (s, log)).2.2
      = log ++ [Event.element bm.page (some timeout) selector] := by
  rcases h : env.pageElement bm.page (some timeout) selector s with ⟨r, s1⟩
  cases r <;> simp only [BrowserManager.WaitForElement, recording, h]

/-- C12, as amended. For every `wait_for_element` call whose payload is accepted
with the arguments `args`, `executeTool` calls the browser's `WaitForElement`
once, with the selector `args.Selector` and a timeout `d`, and the page driver
is asked for that selector under that timeout. The timeout `d` is
`args.Timeout` seconds when `0 < args.Timeout ≤ 9223372036` (the seconds that
fit a 64-bit count of nanoseconds) and 10 seconds when `args.Timeout ≤ 0`. For
a payload that is a JSON object, `args.Timeout` is the integer `t` of the last
member whose key names `timeout`, and zero when no key names `timeout`;
`args.Selector` is the string of the last member whose key names `selector`. -/
theorem wait_for_element_timeout {σ : Type} (env : Env σ) (a : AIAgent)
    (toolCall : ToolCall) (s : σ) (log : List Event) (args : WaitForElementArgs)
    (hname : toolCall.Function.Name = utf8 "wait_for_element")
    (hargs : ParseArguments toolCall.Function.Arguments (JSON.Struct.zero : WaitForElementArgs)
      = Except.ok args) :
    (∃ d : Duration,
      executeTool env a toolCall s
        = (match a.browser.WaitForElement env args.Selector d s with
           | (some err, s1) => (Outcome.ret (NewToolResult toolCall.ID (FormatError err)), s1)
           | (none, s1) =>
             (Outcome.ret (NewToolResult toolCall.ID
               (utf8 "Элемент " ++ args.Selector ++ utf8 " появился")), s1))
      ∧ (executeTool (recording env) a toolCall (s, log)).2.2
          = log ++ [Event.element a.browser.page (some d) args.Selector]
      ∧ (0 < args.Timeout → args.Timeout ≤ 9223372036 → d = args.Timeout * Second)
      ∧ (args.Timeout ≤ 0 → d = 10 * Second))
    ∧ ∀ members : List (GoString × JSON.JVal),
        JSON.parse toolCall.Function.Arguments = some (JSON.JVal.object members) →
        (∀ (pre post : List (GoString × JSON.JVal)) (k lit : GoString) (t : Int),
          members = pre ++ (k, JSON.JVal.number lit) :: post →
          JSON.foldName k = JSON.foldName (utf8 "timeout") →
          JSON.parseInt64 lit = some t →
          (∀ kv ∈ post, JSON.foldName kv.1 ≠ JSON.foldName (utf8 "timeout")) →
          args.Timeout = t)
        ∧ ((∀ kv ∈ members, JSON.foldName kv.1 ≠ JSON.foldName (utf8 "timeout")) →
          args.Timeout = 0)
        ∧ (∀ (pre post : List (GoString × JSON.JVal)) (k sel : GoString),
          members = pre ++ (k, JSON.JVal.string sel) :: post →
          JSON.foldName k = JSON.foldName (utf8 "selector") →
          (∀ kv ∈ post, JSON.foldName kv.1 ≠ JSON.foldName (utf8 "selector")) →
          args.Selector = sel) := by
  refine ⟨⟨waitTimeout args, executeTool_wait_for_element env a toolCall s args hname hargs, ?_,
    waitTimeout_of_pos args, waitTimeout_of_nonpos args⟩, ?_⟩
  · rw [executeTool_wait_for_element (recording env) a toolCall (s, log) args hname hargs]
    have h := WaitForElement_log env a.browser args.Selector (waitTimeout args) s log
    rcases hR : a.browser.WaitForElement (recording env) args.Selector (waitTimeout args) (s, log)
      with ⟨r, w⟩
    rw [hR] at h
    cases r <;> exact h
  · intro members hparse
    refine ⟨?_, ?_, ?_⟩
    · intro pre post k lit t hm hk hlit hpost
      exact ParseArguments_Timeout_of_member _ members pre post args k lit t hparse hargs hm hk
        hlit hpost
    · intro habsent
      exact ParseArguments_Timeout_absent _ members args hparse hargs habsent
    · intro pre post k sel hm hk hpost
      exact ParseArguments_Selector_of_member _ members pre post args k sel hparse hargs hm hk
        hpost

/-- The witness of `wait_for_element_timeout`: the payload
`{"selector":"#a","timeout":5}` is accepted and the page driver is asked for
`#a` under a timeout of five seconds. -/
theorem wait_for_element_timeout_witness :
    (Fixture.call "call_1" "wait_for_element"
        "\x7b\"selector\":\"#a\",\"timeout\":5\x7d").Function.Name = utf8 "wait_for_element"
    ∧ JSON.parse (Fixture.call "call_1" "wait_for_element"
          "\x7b\"selector\":\"#a\",\"timeout\":5\x7d").Function.Arguments
      = some (JSON.JVal.object [(utf8 "selector", JSON.JVal.string (utf8 "#a")),
          (utf8 "timeout", JSON.JVal.number (utf8 "5"))])
    ∧ ParseArguments (Fixture.call "call_1" "wait_for_element"
          "\x7b\"selector\":\"#a\",\"timeout\":5\x7d").Function.Arguments
        (JSON.Struct.zero : WaitForElementArgs)
      = Except.ok { Selector := utf8 "#a", Timeout := 5 }
    ∧ (executeTool (recording (Fixture.env (fun _ => Fixture.assistant [] []) none))
        (Fixture.agent 20)
        (Fixture.call "call_1" "wait_for_element"
          "\x7b\"selector\":\"#a\",\"timeout\":5\x7d") (0, [])).2.2
      = [Event.element 3 (some (5 * Second)) (utf8 "#a")] := by
  refine ⟨rfl, rfl, by decide, ?_⟩
  obtain ⟨⟨d, _, hlog, hpos, _⟩, _⟩ :=
    wait_for_element_timeout (Fixture.env (fun _ => Fixture.assistant [] []) none)
      (Fixture.agent 20)
      (Fixture.call "call_1" "wait_for_element"
        "\x7b\"selector\":\"#a\",\"timeout\":5\x7d") 0 []
      { Selector := utf8 "#a", Timeout := 5 } rfl (by decide)
  rw [hlog, hpos (by decide) (by decide)]
  rfl

/-- C12 as stated does not hold. The payload
`{"selector":"#a","timeout":9223372037}` is accepted with the integer timeout
9223372037 > 0, and the page driver is asked for `#a` under a timeout of
-9223372036709551616 nanoseconds, which is not 9223372037 seconds: the product
with `time.Second` does not fit 64 bits. -/
theorem wait_for_element_timeout_overflows :
    ParseArguments (utf8 "\x7b\"selector\":\"#a\",\"timeout\":9223372037\x7d")
        (JSON.Struct.zero : WaitForElementArgs)
      = Except.ok { Selector := utf8 "#a", Timeout := 9223372037 }
    ∧ (executeTool (recording (Fixture.env (fun _ => Fixture.assistant [] []) none))
        (Fixture.agent 20)
        (Fixture.call "call_1" "wait_for_element"
          "\x7b\"selector\":\"#a\",\"timeout\":9223372037\x7d") (0, [])).2.2
      = [Event.element 3 (some (-9223372036709551616)) (utf8 "#a")]
    ∧ (-9223372036709551616 : Duration) ≠ 9223372037 * Second := by
  refine ⟨by decide, by decide, by decide⟩

end GoTodo
